import Mathlib

/-!
Verification of the promptlight local data store and sync engine.

This file gives a shallow embedding, in Lean 4, of the core data subsystem of
the promptlight repository (`src-tauri/src/data/local.rs`,
`src-tauri/src/data/sync.rs`, `src-tauri/src/data/mod.rs`), and proves or
refutes the frozen specification claims about it.

Modelling conventions:
* The filesystem is modelled as reliable: `std::fs` calls never fail.  The
  store of one identity is a `Store`: the optional `index.json` document plus
  the flat map from `(folder, filename)` to content under `prompts/`.
* `Utc::now().to_rfc3339()` is passed in as an opaque `now : String`
  parameter; `Uuid::new_v4()` as an opaque `freshId : String` parameter.
* Floating point scores (`f64`) are modelled over `ℚ`.  The transcendental
  `exp` and the timestamp parser + hours-difference computation
  (`DateTime::parse_from_rfc3339` followed by
  `signed_duration_since(now).num_hours`) are abstracted into a `Clock`
  record; theorems assume only the properties of `exp` they need
  (non-negativity, and being at most one on non-positive arguments), which
  hold for the real exponential and for IEEE `exp`.
* Rust's stable `sort_by` is modelled by Mathlib's `List.insertionSort`,
  which is a stable sort.
* `use_count` is a `u32` in the source; its increment is modelled with an
  explicit wrap `% 2 ^ 32`, which is the release-build overflow semantics.
* Rust's Unicode `to_lowercase` / `is_alphanumeric` / whitespace handling are
  modelled with Lean's `Char.toLower` / `Char.isAlphanum` /
  `Char.isWhitespace` (they agree on ASCII, which all behaviour in scope
  exercises).
* The snapshot's `data/mod.rs` predates `local.rs`/`sync.rs`: it lacks the
  `seeded` and `folderMeta` fields of `PromptIndex` and the `icon`/`color`
  fields of `PromptMetadata` that `local.rs` and `sync.rs` read and write.
  Those fields are therefore taken from the spec's data model section
  (see the doc comments marked "Modelled from the spec").
-/

namespace PromptLight

/-! ## Character-level string helpers

Rust `str` operations are modelled on `List Char` so that everything reduces
by `decide`/`rfl`.  (`String.toLower`, `String.trim`, ... in core Lean go
through `String.Pos` loops that the kernel does not reduce.)
-/

/-- Model of Rust `str::to_lowercase` (ASCII-faithful). -/
def lowerStr (s : String) : String :=
  ⟨s.data.map Char.toLower⟩

/-- Model of Rust `str::trim`: strip leading and trailing whitespace. -/
def trimStr (s : String) : String :=
  ⟨((s.data.dropWhile Char.isWhitespace).reverse.dropWhile Char.isWhitespace).reverse⟩

/-- Substring containment on character lists: some suffix of `hay` has `sub`
as a prefix.  Models Rust `str::contains` for literal pattern strings. -/
def containsSub (sub : List Char) : List Char → Bool
  | [] => sub.isEmpty
  | c :: t => sub.isPrefixOf (c :: t) || containsSub sub t

/-- Model of Rust `str::contains`. -/
def strContains (hay sub : String) : Bool :=
  containsSub sub.data hay.data

/-- Model of Rust `str::starts_with`. -/
def strStarts (hay sub : String) : Bool :=
  sub.data.isPrefixOf hay.data

/-- Accumulator loop for `splitWs`; `cur` is the current word reversed. -/
def splitWsGo : List Char → List Char → List (List Char)
  | [], cur => if cur.isEmpty then [] else [cur.reverse]
  | c :: t, cur =>
    if c.isWhitespace then
      if cur.isEmpty then splitWsGo t [] else cur.reverse :: splitWsGo t []
    else splitWsGo t (c :: cur)

/-- Model of Rust `str::split_whitespace`: maximal non-whitespace runs. -/
def splitWs (s : String) : List String :=
  (splitWsGo s.data []).map (fun w => ⟨w⟩)

/-- Accumulator loop for splitting on `-`; like Rust `str::split('-')` this
keeps empty pieces. -/
def splitDashGo : List Char → List Char → List (List Char)
  | [], cur => [cur.reverse]
  | c :: t, cur =>
    if c = '-' then cur.reverse :: splitDashGo t [] else splitDashGo t (c :: cur)

/-- Model of `slugify` in `local.rs`: lowercase, map each non-alphanumeric
character to `-`, split on `-`, drop empty pieces, re-join with `-`. -/
def slugify (name : String) : String :=
  let mapped := (lowerStr name).data.map (fun c => if c.isAlphanum then c else '-')
  ⟨(((splitDashGo mapped []).filter (fun w => !w.isEmpty)).intersperse ['-']).flatten⟩

/-! ## Data model (`data/mod.rs`, fields per the spec where the snapshot's
`mod.rs` is stale) -/

/-- FolderMetadata.  Modelled from the spec: "FolderMetadata: `name`,
optional `icon`, optional `color`" (the snapshot's `mod.rs` predates this
struct; `sync.rs` reads `index.folder_meta` containing it). -/
structure FolderMetadata where
  name : String
  icon : Option String
  color : Option String
deriving DecidableEq, Repr

/-- Metadata of one prompt, as stored in `index.json`.  The `icon` and
`color` fields are modelled from the spec ("optional `icon`, `color`"): the
snapshot's `mod.rs` lacks them but `local.rs` clones them when saving.
`useCount` is `u32` in the source. -/
structure PromptMetadata where
  id : String
  name : String
  folder : String
  description : String
  filename : String
  useCount : Nat
  lastUsed : Option String
  created : String
  updated : String
  icon : Option String
  color : Option String
deriving DecidableEq, Repr

/-- A full prompt: metadata plus the content body. -/
structure Prompt where
  metadata : PromptMetadata
  content : String
deriving DecidableEq, Repr

/-- The aggregate index document.  The `folderMeta` and `seeded` fields are
modelled from the spec ("optional `folderMeta: Map<folder, FolderMetadata>`",
"`seeded: bool` — true once default content has ever been created"): the
snapshot's `mod.rs` lacks them, but `local.rs` branches on `index.seeded`
and `sync.rs` reads `index.folder_meta`. -/
structure PromptIndex where
  prompts : List PromptMetadata
  folders : List String
  folderMeta : Option (List (String × FolderMetadata))
  seeded : Bool
deriving DecidableEq, Repr

/-- A search result: a prompt's metadata paired with its score (`f64` in the
source, modelled over `ℚ`). -/
structure SearchResult where
  prompt : PromptMetadata
  score : ℚ
deriving DecidableEq, Repr

/-! ## The on-disk state of one identity partition -/

/-- One identity's persistent state: the optional `index.json` (`none` means
the file does not exist) and the content files under `prompts/`, keyed by
`(folder, filename)`. -/
structure Store where
  index : Option PromptIndex
  files : List ((String × String) × String)
deriving DecidableEq, Repr

/-- Look up a content file. -/
def filesGet (files : List ((String × String) × String)) (folder filename : String) :
    Option String :=
  (files.find? (fun e => e.1 = (folder, filename))).map (fun e => e.2)

/-- Write (create or overwrite) a content file, as `fs::write` does. -/
def filesPut (files : List ((String × String) × String))
    (folder filename content : String) : List ((String × String) × String) :=
  if files.any (fun e => e.1 = (folder, filename)) then
    files.map (fun e => if e.1 = (folder, filename) then (e.1, content) else e)
  else
    files ++ [((folder, filename), content)]

/-- Remove a content file if present (`delete_prompt_content` tolerates a
missing file). -/
def filesDel (files : List ((String × String) × String))
    (folder filename : String) : List ((String × String) × String) :=
  files.filter (fun e => ¬e.1 = (folder, filename))

/-- Model of `read_prompt_content`: a missing file yields the empty string,
not an error. -/
def read_prompt_content (s : Store) (folder filename : String) : String :=
  (filesGet s.files folder filename).getD ""

/-- Model of `write_prompt_content` (and `write_prompt_content_sync`). -/
def write_prompt_content (s : Store) (folder filename content : String) : Store :=
  { s with files := filesPut s.files folder filename content }

/-- Model of `delete_prompt_content`. -/
def delete_prompt_content (s : Store) (folder filename : String) : Store :=
  { s with files := filesDel s.files folder filename }

/-- Model of `save_index_sync`: serialize the whole index to its location. -/
def save_index_sync (s : Store) (index : PromptIndex) : Store :=
  { s with index := some index }

/-! ## Sample seeding (`create_sample_prompts` in `data/mod.rs`) -/

/-- One sample row of `create_sample_prompts`: (id, name, folder, description,
content).  The filename is `id ++ ".md"`. -/
def sampleRows : List (String × String × String × String × String) :=
  [ ("code-review", "Code Review", "development",
     "Review code for bugs, performance, and best practices",
     "Please review the following code for:\n\n1. **Bugs**: Look for potential errors, edge cases, or logic issues\n2. **Performance**: Identify any inefficiencies or optimization opportunities\n3. **Best Practices**: Check for adherence to coding standards and patterns\n4. **Security**: Flag any potential security vulnerabilities\n5. **Readability**: Suggest improvements for clarity and maintainability\n\nCode to review:\n"),
    ("explain-code", "Explain Code", "development",
     "Get a clear explanation of how code works",
     "Please explain the following code in detail:\n\n1. What is the overall purpose of this code?\n2. Walk through the logic step by step\n3. Explain any non-obvious patterns or techniques used\n4. Note any potential issues or improvements\n\nCode:\n"),
    ("write-tests", "Write Tests", "development",
     "Generate unit tests for code",
     "Please write comprehensive unit tests for the following code. Include:\n\n1. Happy path tests\n2. Edge cases\n3. Error handling tests\n4. Any setup/teardown needed\n\nUse the testing framework appropriate for the language.\n\nCode to test:\n"),
    ("fix-error", "Fix Error", "development",
     "Help debug and fix an error",
     "I'm encountering an error. Please help me debug and fix it.\n\n**Error Message:**\n\n**Relevant Code:**\n\n**What I've tried:**\n\n"),
    ("summarize", "Summarize", "writing",
     "Summarize text concisely",
     "Please summarize the following text. Provide:\n\n1. A brief one-sentence summary\n2. Key points (3-5 bullet points)\n3. Any important details or nuances\n\nText to summarize:\n"),
    ("improve-writing", "Improve Writing", "writing",
     "Polish and improve written content",
     "Please improve the following text for clarity, conciseness, and impact. Maintain the original meaning and tone while making it more effective.\n\nText to improve:\n"),
    ("email-reply", "Email Reply", "communication",
     "Draft a professional email response",
     "Please help me draft a professional email reply. Keep it concise and appropriate for a business context.\n\n**Original email:**\n\n**Key points I want to address:**\n\n**Tone (formal/casual/friendly):**\n"),
    ("brainstorm", "Brainstorm Ideas", "creative",
     "Generate creative ideas and solutions",
     "Please help me brainstorm ideas for the following. Generate diverse options ranging from conventional to creative:\n\nTopic/Challenge:\n") ]

/-- Model of `create_sample_prompts`.  The `seeded := true` and
`folderMeta := none` fields, and the `icon`/`color` fields, are modelled
from the spec ("seeds default content ... marks `seeded=true`"): the
snapshot's `mod.rs` predates those fields. -/
def create_sample_prompts (now : String) : PromptIndex × List (String × String) :=
  let prompts := sampleRows.map (fun r =>
    { id := r.1, name := r.2.1, folder := r.2.2.1, description := r.2.2.2.1,
      filename := r.1 ++ ".md", useCount := 0, lastUsed := none,
      created := now, updated := now, icon := none, color := none : PromptMetadata })
  let files := sampleRows.map (fun r => (r.1 ++ ".md", r.2.2.2.2))
  ({ prompts := prompts,
     folders := ["development", "writing", "communication", "creative", "uncategorized"],
     folderMeta := none, seeded := true }, files)

/-- Model of `seed_sample_prompts` in `local.rs`: write each sample file into
its prompt's folder (the source pairs `files[idx]` with
`index.prompts[idx].folder`; the zip below is the same pairing), then save
the index. -/
def seed_sample_prompts (now : String) (s : Store) : Store × PromptIndex :=
  let ip := create_sample_prompts now
  let s := (ip.1.prompts.zip ip.2).foldl
    (fun st e => write_prompt_content st e.1.folder e.2.1 e.2.2) s
  (save_index_sync s ip.1, ip.1)

/-- Model of `load_index_sync`: read the index; seed when the file is absent,
or when it is present with no prompts and `seeded` is false; otherwise
return it as stored.  (JSON (de)serialization is modelled as reliable.) -/
def load_index_sync (now : String) (s : Store) : Store × PromptIndex :=
  match s.index with
  | none => seed_sample_prompts now s
  | some index =>
    if index.prompts.isEmpty && !index.seeded then seed_sample_prompts now s
    else (s, index)

/-! ## First-match list surgery

`local.rs` mutates `index.prompts` through `iter().position(..)` followed by
an indexed assignment or `Vec::remove`, and through `iter_mut().find(..)`.
The three helpers below are the equivalent first-match operations. -/

/-- Replace the first element satisfying `pred` by `b`; `none` when absent.
Equivalent to `position(pred)` followed by `v[idx] = b`. -/
def replaceFirst (pred : α → Bool) (b : α) : List α → Option (List α)
  | [] => none
  | a :: t => if pred a then some (b :: t) else (replaceFirst pred b t).map (fun l => a :: l)

/-- Remove and return the first element satisfying `pred`; `none` when
absent.  Equivalent to `position(pred)` followed by `Vec::remove(idx)`. -/
def extractFirst (pred : α → Bool) : List α → Option (α × List α)
  | [] => none
  | a :: t =>
    if pred a then some (a, t)
    else (extractFirst pred t).map (fun r => (r.1, a :: r.2))

/-- Apply `f` to the first element satisfying `pred`; `none` when absent.
Equivalent to `iter_mut().find(pred)` followed by in-place mutation. -/
def modifyFirst (pred : α → Bool) (f : α → α) : List α → Option (List α)
  | [] => none
  | a :: t => if pred a then some (f a :: t) else (modifyFirst pred f t).map (fun l => a :: l)

/-! ## Local Store CRUD (`local.rs`) -/

/-- Model of `LocalDataStore::save_prompt` (and the identical
`save_prompt_sync`).  `freshId` stands for `Uuid::new_v4().to_string()`,
`now` for `Utc::now().to_rfc3339()`. -/
def save_prompt (freshId now : String) (s : Store) (p : Prompt) : Store × PromptMetadata :=
  let li := load_index_sync now s
  let s := li.1
  let index := li.2
  let updatedMeta := { p.metadata with updated := now, lastUsed := some now }
  match replaceFirst (fun q => q.id == p.metadata.id) updatedMeta index.prompts with
  | some prompts =>
    let index := { index with prompts := prompts }
    let s := write_prompt_content s updatedMeta.folder updatedMeta.filename p.content
    (save_index_sync s index, updatedMeta)
  | none =>
    let id := if p.metadata.id.isEmpty then freshId else p.metadata.id
    let filename :=
      if p.metadata.filename.isEmpty then slugify p.metadata.name ++ ".md"
      else p.metadata.filename
    let newMetadata : PromptMetadata :=
      { id := id, name := p.metadata.name, folder := p.metadata.folder,
        description := p.metadata.description, filename := filename,
        useCount := 0, lastUsed := some now, created := now, updated := now,
        icon := p.metadata.icon, color := p.metadata.color }
    let index :=
      if index.folders.contains newMetadata.folder then index
      else { index with folders := index.folders ++ [newMetadata.folder] }
    let index := { index with prompts := index.prompts ++ [newMetadata] }
    let s := write_prompt_content s newMetadata.folder newMetadata.filename p.content
    (save_index_sync s index, newMetadata)

/-- Model of `LocalDataStore::delete_prompt` (and `delete_prompt_sync`). -/
def delete_prompt (now : String) (s : Store) (id : String) : Except String Store :=
  let li := load_index_sync now s
  let s := li.1
  let index := li.2
  match extractFirst (fun q => q.id == id) index.prompts with
  | none => .error ("Prompt not found: " ++ id)
  | some md =>
    let index := { index with prompts := md.2 }
    let s := delete_prompt_content s md.1.folder md.1.filename
    .ok (save_index_sync s index)

/-- Model of `LocalDataStore::get_prompt` (and `get_prompt_sync`): look up
metadata by id, then read content (missing file reads as empty). -/
def get_prompt_sync (now : String) (s : Store) (id : String) :
    Store × Except String Prompt :=
  let li := load_index_sync now s
  let s := li.1
  let index := li.2
  match index.prompts.find? (fun q => q.id == id) with
  | none => (s, .error ("Prompt not found: " ++ id))
  | some metadata =>
    (s, .ok { metadata := metadata, content := read_prompt_content s metadata.folder metadata.filename })

/-- Model of `LocalDataStore::add_folder` (and `add_folder_sync`). -/
def add_folder (now : String) (s : Store) (name : String) : Except String Store :=
  let li := load_index_sync now s
  let s := li.1
  let index := li.2
  let folderName := lowerStr (trimStr name)
  if folderName.isEmpty then .error "Folder name cannot be empty"
  else if index.folders.contains folderName then .error "Folder already exists"
  else .ok (save_index_sync s { index with folders := index.folders ++ [folderName] })

/-- Model of `LocalDataStore::rename_folder` (and `rename_folder_sync`).
The on-disk `fs::rename` of the folder directory is the re-keying of every
content file under the old folder. -/
def rename_folder (now : String) (s : Store) (oldName newName : String) :
    Except String Store :=
  let li := load_index_sync now s
  let s := li.1
  let index := li.2
  let oldFolder := lowerStr (trimStr oldName)
  let newFolder := lowerStr (trimStr newName)
  if newFolder.isEmpty then .error "Folder name cannot be empty"
  else if !index.folders.contains oldFolder then .error "Folder does not exist"
  else if index.folders.contains newFolder then .error "A folder with that name already exists"
  else
    let s := { s with files := (s.files.map
      (fun e => if e.1.1 = oldFolder then ((newFolder, e.1.2), e.2) else e)) }
    let prompts := index.prompts.map
      (fun q => if q.folder = oldFolder then { q with folder := newFolder } else q)
    let folders := (replaceFirst (fun f => f == oldFolder) newFolder index.folders).getD index.folders
    .ok (save_index_sync s { index with prompts := prompts, folders := folders })

/-- One step of the move loop in `delete_folder`: move the prompt's content
file to `uncategorized` when it exists (an `fs::rename` that replaces any
file already at the destination), and reassign the prompt's folder. -/
def deleteFolderStep (folderName : String)
    (acc : List ((String × String) × String) × List PromptMetadata)
    (q : PromptMetadata) :
    List ((String × String) × String) × List PromptMetadata :=
  if q.folder = folderName then
    let files :=
      match filesGet acc.1 folderName q.filename with
      | some content =>
        filesPut (filesDel acc.1 folderName q.filename) "uncategorized" q.filename content
      | none => acc.1
    (files, acc.2 ++ [{ q with folder := "uncategorized" }])
  else (acc.1, acc.2 ++ [q])

/-- Model of `LocalDataStore::delete_folder` (and `delete_folder_sync`).
After the move loop, `remove_dir_all` deletes whatever is still under the
folder's directory, and the folder is retained out of `folders`. -/
def delete_folder (now : String) (s : Store) (name : String) : Except String Store :=
  let li := load_index_sync now s
  let s := li.1
  let index := li.2
  let folderName := lowerStr (trimStr name)
  if folderName = "uncategorized" then .error "Cannot delete the uncategorized folder"
  else if !index.folders.contains folderName then .error "Folder does not exist"
  else
    let moved := index.prompts.foldl (deleteFolderStep folderName) (s.files, [])
    let files := moved.1.filter (fun e => ¬e.1.1 = folderName)
    let folders := index.folders.filter (fun f => ¬f = folderName)
    .ok (save_index_sync { s with files := files }
      { index with prompts := moved.2, folders := folders })

/-- Model of `LocalDataStore::record_usage` (and `record_usage_sync`).
`use_count` is a `u32`; `+= 1` is modelled with the release-build wrapping
semantics `% 2 ^ 32`. -/
def record_usage (now : String) (s : Store) (id : String) : Except String Store :=
  let li := load_index_sync now s
  let s := li.1
  let index := li.2
  match modifyFirst (fun q => q.id == id)
      (fun q => { q with useCount := (q.useCount + 1) % 2 ^ 32, lastUsed := some now })
      index.prompts with
  | none => .error ("Prompt not found: " ++ id)
  | some prompts => .ok (save_index_sync s { index with prompts := prompts })

/-! ## Search and ranking (`local.rs`)

Scores are `f64` in the source, modelled over `ℚ`.  The parts of the scoring
that a shallow embedding cannot compute — parsing an RFC3339 timestamp and
taking the whole-hours difference to `Utc::now()`, and the IEEE `exp` — are
abstracted into a `Clock`. -/

/-- Abstraction of the time-dependent pieces of scoring.  `hoursSince ts` is
`DateTime::parse_from_rfc3339(ts)` followed by
`Utc::now().signed_duration_since(..).num_hours()`: `none` models a parse
failure.  `expFn` is `f64::exp`. -/
structure Clock where
  hoursSince : String → Option ℚ
  expFn : ℚ → ℚ

/-- Scoring constant `SCORE_NAME_MATCH`. -/
def SCORE_NAME_MATCH : ℚ := 100
/-- Scoring constant `SCORE_FOLDER_MATCH`. -/
def SCORE_FOLDER_MATCH : ℚ := 50
/-- Scoring constant `SCORE_DESCRIPTION_MATCH`. -/
def SCORE_DESCRIPTION_MATCH : ℚ := 30
/-- Scoring constant `SCORE_CONTENT_MATCH`. -/
def SCORE_CONTENT_MATCH : ℚ := 15
/-- Scoring constant `MULT_EXACT`. -/
def MULT_EXACT : ℚ := 2
/-- Scoring constant spelled `MULT_PREFIX` in the source (renamed here
because `prefix` is reserved notation vocabulary in Lean). -/
def MULT_PREFIX_MATCH : ℚ := 1.5
/-- Scoring constant `MULT_WORD`. -/
def MULT_WORD : ℚ := 0.5
/-- Scoring constant `RECENCY_MAX_SCORE`. -/
def RECENCY_MAX_SCORE : ℚ := 100
/-- Scoring constant `RECENCY_HALF_LIFE_HOURS`. -/
def RECENCY_HALF_LIFE_HOURS : ℚ := 720
/-- Scoring constant `RECENCY_TIEBREAKER_MAX`. -/
def RECENCY_TIEBREAKER_MAX : ℚ := 10
/-- Scoring constant `NEVER_USED_PENALTY`. -/
def NEVER_USED_PENALTY : ℚ := -1000
/-- Result-list truncation bound `MAX_RESULTS`. -/
def MAX_RESULTS : Nat := 15

/-- Model of `calculate_recency_score` (empty-query scoring): a decayed
recency score for a parseable `lastUsed`, the fixed penalty otherwise. -/
def calculate_recency_score (c : Clock) (p : PromptMetadata) : ℚ :=
  match p.lastUsed with
  | some ts =>
    match c.hoursSince ts with
    | some hours =>
      let decay := 0.693 / RECENCY_HALF_LIFE_HOURS
      RECENCY_MAX_SCORE * c.expFn (-decay * max hours 0)
    | none => NEVER_USED_PENALTY
  | none => NEVER_USED_PENALTY

/-- Model of `calculate_recency_tiebreaker` (small bonus added to non-zero
relevance scores): same decay with amplitude 10, and 0 instead of the
penalty when `lastUsed` is absent or unparseable. -/
def calculate_recency_tiebreaker (c : Clock) (p : PromptMetadata) : ℚ :=
  match p.lastUsed with
  | some ts =>
    match c.hoursSince ts with
    | some hours =>
      let decay := 0.693 / RECENCY_HALF_LIFE_HOURS
      RECENCY_TIEBREAKER_MAX * c.expFn (-decay * max hours 0)
    | none => 0
  | none => 0

/-- Model of `calculate_score`: the tiered relevance score of one prompt
against an already-lowercased query.  Content is read through the store only
in the fallback tier, exactly as the source does. -/
def calculate_score (s : Store) (c : Clock) (p : PromptMetadata) (query : String) : ℚ :=
  let nameLower := lowerStr p.name
  let folderLower := lowerStr p.folder
  let descLower := lowerStr p.description
  let score : ℚ := 0
  let score :=
    if nameLower = query then score + SCORE_NAME_MATCH * MULT_EXACT
    else if strStarts nameLower query then score + SCORE_NAME_MATCH * MULT_PREFIX_MATCH
    else if strContains nameLower query then score + SCORE_NAME_MATCH
    else score
  let score := if strContains folderLower query then score + SCORE_FOLDER_MATCH else score
  let score := if strContains descLower query then score + SCORE_DESCRIPTION_MATCH else score
  let score :=
    if score = 0 then
      (splitWs query).foldl (fun sc w =>
        let sc := if strContains nameLower w then sc + SCORE_NAME_MATCH * MULT_WORD else sc
        let sc := if strContains folderLower w then sc + SCORE_FOLDER_MATCH * MULT_WORD else sc
        if strContains descLower w then sc + SCORE_DESCRIPTION_MATCH * MULT_WORD else sc) score
    else score
  let score :=
    if score = 0 then
      let contentLower := lowerStr (read_prompt_content s p.folder p.filename)
      if strContains contentLower query then score + SCORE_CONTENT_MATCH
      else
        (splitWs query).foldl (fun sc w =>
          if strContains contentLower w then sc + SCORE_CONTENT_MATCH * MULT_WORD else sc) score
    else score
  if score > 0 then score + calculate_recency_tiebreaker c p else score

/-! ## The sort comparators of `search_prompts`

Rust's `sort_by` receives a comparator returning an `Ordering`; `sort_by` is
a stable sort, modelled here by Mathlib's (stable) `List.insertionSort` on
the relation "the comparator does not say greater-than". -/

/-- Three-way comparison on `ℚ`, as `f64::partial_cmp` on non-NaN values. -/
def cmpQ (x y : ℚ) : Ordering :=
  if x < y then .lt else if y < x then .gt else .eq

/-- Three-way comparison of character lists, as Rust `String::cmp`
(lexicographic; UTF-8 byte order coincides with code-point order). -/
def charsCmp : List Char → List Char → Ordering
  | [], [] => .eq
  | [], _ :: _ => .lt
  | _ :: _, [] => .gt
  | a :: as, b :: bs => if a < b then .lt else if b < a then .gt else charsCmp as bs

/-- The `lastUsed` tiebreak of the empty-query comparator, verbatim from the
source: it matches on `(b.prompt.last_used, a.prompt.last_used)`. -/
def lastUsedTieCmp (a b : SearchResult) : Ordering :=
  match b.prompt.lastUsed, a.prompt.lastUsed with
  | some bts, some ats => charsCmp bts.data ats.data
  | some _, none => .lt
  | none, some _ => .gt
  | none, none => .eq

/-- The full empty-query comparator of `search_prompts`: score descending,
then the `lastUsed` tiebreak. -/
def emptyQueryCmp (a b : SearchResult) : Ordering :=
  let sc := cmpQ b.score a.score
  if sc = .eq then lastUsedTieCmp a b else sc

/-- The sort relation induced by the empty-query comparator. -/
def emptyQueryLe (a b : SearchResult) : Prop :=
  emptyQueryCmp a b ≠ .gt

instance : DecidableRel emptyQueryLe := fun a b => by
  unfold emptyQueryLe
  infer_instance

/-- The sort relation of the non-empty-query branch: score descending. -/
def scoreDescLe (a b : SearchResult) : Prop :=
  cmpQ b.score a.score ≠ .gt

instance : DecidableRel scoreDescLe := fun a b => by
  unfold scoreDescLe
  infer_instance

/-- Model of `search_prompts`.  Empty (lowercased) query: recency browse with
the tie-breaking comparator, truncated to `MAX_RESULTS`.  Non-empty query:
relevance scores, records scoring zero dropped, sorted by score descending,
truncated. -/
def search_prompts (c : Clock) (now : String) (s : Store) (query : String) :
    Store × List SearchResult :=
  let li := load_index_sync now s
  let s := li.1
  let index := li.2
  let queryLower := lowerStr query
  if queryLower.isEmpty then
    let results := index.prompts.map
      (fun p => { prompt := p, score := calculate_recency_score c p : SearchResult })
    (s, (results.insertionSort emptyQueryLe).take MAX_RESULTS)
  else
    let results := index.prompts.filterMap (fun p =>
      let score := calculate_score s c p queryLower
      if score > 0 then some { prompt := p, score := score : SearchResult } else none)
    (s, (results.insertionSort scoreDescLe).take MAX_RESULTS)

/-! ## Identity partitioning and migration (`migrate_from_anonymous`) -/

/-- One identity partition as `migrate_from_anonymous` sees it: the raw
`index.json` file (copied byte-for-byte, so kept as an uninterpreted string
here) and the `prompts/` tree, `none` when that directory does not exist.
The tree is flat over `(folder, filename)`, which is the only shape the
store ever creates. -/
structure Partition where
  indexFile : Option String
  promptsDir : Option (List ((String × String) × String))
deriving DecidableEq, Repr

/-- Model of `copy_dir_recursive`: create the destination and copy every
entry over it, overwriting files of the same name. -/
def copy_dir_recursive (src dst : List ((String × String) × String)) :
    List ((String × String) × String) :=
  src.foldl (fun acc e => filesPut acc e.1.1 e.1.2 e.2) dst

/-- Model of `migrate_from_anonymous`.  `isUserStore` is `user_id.is_some()`
for the store the method is called on.  Returns the did-migrate flag, the
user partition after the call, and the anonymous partition after the call
(the source only ever writes beneath the user's directory, which the
definition makes explicit by passing `anon` through). -/
def migrate_from_anonymous (isUserStore : Bool) (user anon : Partition) :
    Bool × Partition × Partition :=
  if !isUserStore then (false, user, anon)
  else if user.indexFile.isSome then (false, user, anon)
  else
    match anon.indexFile with
    | none => (false, user, anon)
    | some indexContent =>
      let user := { user with indexFile := some indexContent }
      let user :=
        match anon.promptsDir with
        | some srcFiles =>
          { user with promptsDir := some (copy_dir_recursive srcFiles (user.promptsDir.getD [])) }
        | none => user
      (true, user, anon)

/-! ## Sync orchestrator (`sync.rs`)

The `SyncService` state, minus the network client configuration.  Network
effects are made visible as a list of `NetCall`s the operation performs; the
outcome of a remote call is supplied as a parameter where the source awaits
one. -/

/-- The fields of `SyncState` that the modelled operations read. -/
structure SyncState where
  localStore : Store
  userId : Option String
  idToken : Option String
  syncEnabled : Bool
deriving DecidableEq, Repr

/-- A network operation against Firestore, with its payload. -/
inductive NetCall
  | uploadAll (userId idToken : String) (index : PromptIndex) (prompts : List Prompt)
  | savePromptRemote (userId idToken : String) (p : Prompt)
  | deletePromptRemote (userId idToken promptId : String)
  | saveMeta (userId idToken : String) (folders : List String)
      (folderMeta : Option (List (String × FolderMetadata)))
deriving DecidableEq

/-- Model of `get_sync_context`: the `(user_id, id_token)` snapshot if sync
is enabled and both are present. -/
def get_sync_context (svc : SyncState) : Option (String × String) :=
  if !svc.syncEnabled then none
  else
    match svc.userId, svc.idToken with
    | some u, some t => some (u, t)
    | _, _ => none

/-- Model of `load_all_prompts_sync`: `get_prompt_sync` for every metadata
entry of the index, first failure aborting.  (The loads happen against the
already-loaded store, whose index file exists and is non-empty at the call
site, so `get_prompt_sync` does not re-seed there.) -/
def load_all_prompts_sync (now : String) (s : Store) (index : PromptIndex) :
    Except String (List Prompt) :=
  index.prompts.mapM (fun meta => (get_prompt_sync now s meta.id).2)

/-- Model of `sync_to_firestore`.  Returns the operation result, the local
store after the call, and the network calls performed.  `uploadResult` is
the outcome `firestore.upload_all` would return when it is reached. -/
def sync_to_firestore (now : String) (uploadResult : Except String Unit)
    (svc : SyncState) : Except String Unit × Store × List NetCall :=
  match svc.userId with
  | none => (.error "Not authenticated", svc.localStore, [])
  | some userId =>
    match svc.idToken with
    | none => (.error "No auth token", svc.localStore, [])
    | some idToken =>
      let li := load_index_sync now svc.localStore
      let store := li.1
      let index := li.2
      if index.prompts.isEmpty then
        (.error "Cannot sync empty local data to cloud. This is a safety measure to prevent data loss.",
         store, [])
      else
        match load_all_prompts_sync now store index with
        | .error e => (.error e, store, [])
        | .ok prompts =>
          (uploadResult, store, [NetCall.uploadAll userId idToken index prompts])

/-- Model of `sync_from_firestore`.  `downloaded` is the outcome of
`firestore.download_all` (an index that the remote client always builds with
`seeded = true`, plus the record list). -/
def sync_from_firestore (now : String) (svc : SyncState)
    (downloaded : Except String (PromptIndex × List Prompt)) :
    Except String Unit × Store :=
  match svc.userId with
  | none => (.error "Not authenticated", svc.localStore)
  | some _ =>
    match svc.idToken with
    | none => (.error "No auth token", svc.localStore)
    | some _ =>
      let li := load_index_sync now svc.localStore
      let store := li.1
      let localPromptCount := li.2.prompts.length
      match downloaded with
      | .error e => (.error e, store)
      | .ok ip =>
        if ip.1.prompts.isEmpty ∧ 0 < localPromptCount then (.ok (), store)
        else
          let store := save_index_sync store ip.1
          let store := ip.2.foldl
            (fun st p => write_prompt_content st p.metadata.folder p.metadata.filename p.content)
            store
          (.ok (), store)

/-! ### Per-operation background mirroring (the `DataStore` impl for
`SyncService`)

Each mutating operation mutates the local store synchronously and then, if a
sync context exists, performs one best-effort mirror call whose outcome the
source explicitly discards (`let _ = ...`).  `mirror` below is that
discarded outcome. -/

/-- Model of `SyncService::save_prompt`. -/
def svc_save_prompt (freshId now : String) (mirror : Except String Unit)
    (svc : SyncState) (p : Prompt) :
    Except String PromptMetadata × SyncState × List NetCall :=
  let sm := save_prompt freshId now svc.localStore p
  let fullPrompt : Prompt := { metadata := sm.2, content := p.content }
  let svc := { svc with localStore := sm.1 }
  let calls :=
    match get_sync_context svc with
    | none => []
    | some ut => [NetCall.savePromptRemote ut.1 ut.2 fullPrompt]
  let _ := mirror
  (.ok sm.2, svc, calls)

/-- Model of `SyncService::delete_prompt`. -/
def svc_delete_prompt (now : String) (mirror : Except String Unit)
    (svc : SyncState) (id : String) :
    Except String Unit × SyncState × List NetCall :=
  match delete_prompt now svc.localStore id with
  | .error e => (.error e, svc, [])
  | .ok store =>
    let svc := { svc with localStore := store }
    let calls :=
      match get_sync_context svc with
      | none => []
      | some ut => [NetCall.deletePromptRemote ut.1 ut.2 id]
    let _ := mirror
    (.ok (), svc, calls)

/-- The meta-mirroring epilogue shared by the folder operations: reload the
index (`self.get_index()`) and mirror the folder list and metadata. -/
def svcMetaEpilogue (now : String) (mirror : Except String Unit)
    (svc : SyncState) (store : Store) :
    Except String Unit × SyncState × List NetCall :=
  let li := load_index_sync now store
  let svc := { svc with localStore := li.1 }
  let calls :=
    match get_sync_context svc with
    | none => []
    | some ut => [NetCall.saveMeta ut.1 ut.2 li.2.folders li.2.folderMeta]
  let _ := mirror
  (.ok (), svc, calls)

/-- Model of `SyncService::add_folder`. -/
def svc_add_folder (now : String) (mirror : Except String Unit)
    (svc : SyncState) (name : String) :
    Except String Unit × SyncState × List NetCall :=
  match add_folder now svc.localStore name with
  | .error e => (.error e, svc, [])
  | .ok store => svcMetaEpilogue now mirror svc store

/-- Model of `SyncService::rename_folder`. -/
def svc_rename_folder (now : String) (mirror : Except String Unit)
    (svc : SyncState) (oldName newName : String) :
    Except String Unit × SyncState × List NetCall :=
  match rename_folder now svc.localStore oldName newName with
  | .error e => (.error e, svc, [])
  | .ok store => svcMetaEpilogue now mirror svc store

/-- Model of `SyncService::delete_folder`. -/
def svc_delete_folder (now : String) (mirror : Except String Unit)
    (svc : SyncState) (name : String) :
    Except String Unit × SyncState × List NetCall :=
  match delete_folder now svc.localStore name with
  | .error e => (.error e, svc, [])
  | .ok store => svcMetaEpilogue now mirror svc store

/-- Model of `SyncService::record_usage`: after the local update, the prompt
is re-read and mirrored only when the read succeeds (`if let Ok(prompt)`). -/
def svc_record_usage (now : String) (mirror : Except String Unit)
    (svc : SyncState) (id : String) :
    Except String Unit × SyncState × List NetCall :=
  match record_usage now svc.localStore id with
  | .error e => (.error e, svc, [])
  | .ok store =>
    let gp := get_prompt_sync now store id
    let svc := { svc with localStore := gp.1 }
    let calls :=
      match gp.2 with
      | .ok p =>
        match get_sync_context svc with
        | none => []
        | some ut => [NetCall.savePromptRemote ut.1 ut.2 p]
      | .error _ => []
    let _ := mirror
    (.ok (), svc, calls)

/-! ## The index invariant and the uniform mutating-operation view -/

/-- The folder-membership invariant of the Index from the spec's data model:
every prompt's `folder` value appears in `folders`. -/
def Inv (index : PromptIndex) : Prop :=
  ∀ p ∈ index.prompts, p.folder ∈ index.folders

instance (index : PromptIndex) : Decidable (Inv index) := by
  unfold Inv
  infer_instance

/-- One mutating Local Store operation together with its input. -/
inductive LocalOp
  | save (freshId : String) (p : Prompt)
  | del (id : String)
  | addFolder (name : String)
  | renameFolder (oldName newName : String)
  | deleteFolder (name : String)
  | recordUsage (id : String)
deriving DecidableEq

/-- Run one mutating operation against a store. -/
def applyLocal (now : String) (op : LocalOp) (s : Store) : Except String Store :=
  match op with
  | .save freshId p => .ok (save_prompt freshId now s p).1
  | .del id => delete_prompt now s id
  | .addFolder name => add_folder now s name
  | .renameFolder oldName newName => rename_folder now s oldName newName
  | .deleteFolder name => delete_folder now s name
  | .recordUsage id => record_usage now s id

/-- The side conditions under which the operations preserve `Inv` (the
amended form of claim C1): a `saveRecord` whose id already exists must carry
a folder that is already listed, and `deleteFolder` needs `uncategorized` to
be listed (it moves prompts there without adding it). -/
def opSafe (op : LocalOp) (index : PromptIndex) : Prop :=
  match op with
  | .save _ p => (∃ q ∈ index.prompts, q.id = p.metadata.id) → p.metadata.folder ∈ index.folders
  | .deleteFolder _ => "uncategorized" ∈ index.folders
  | _ => True

instance (op : LocalOp) (index : PromptIndex) : Decidable (opSafe op index) := by
  cases op <;> simp only [opSafe] <;> infer_instance

/-! ## Helper lemmas about the first-match list surgery -/

theorem replaceFirst_mem {pred : α → Bool} {b : α} {l l' : List α}
    (h : replaceFirst pred b l = some l') {a : α} (ha : a ∈ l') : a ∈ l ∨ a = b := by
  induction l generalizing l' with
  | nil => simp [replaceFirst] at h
  | cons x t ih =>
    rw [replaceFirst] at h
    by_cases hx : pred x = true
    · simp only [hx, if_pos] at h
      cases h
      rcases List.mem_cons.mp ha with hab | hat
      · exact Or.inr hab
      · exact Or.inl (List.mem_cons_of_mem x hat)
    · simp only [hx] at h
      rcases Option.map_eq_some'.mp h with ⟨t', ht', rfl⟩
      rcases List.mem_cons.mp ha with hax | hat
      · exact Or.inl (hax ▸ List.mem_cons_self x t)
      · rcases ih ht' hat with h1 | h1
        · exact Or.inl (List.mem_cons_of_mem x h1)
        · exact Or.inr h1

theorem replaceFirst_self_mem {pred : α → Bool} {b : α} {l l' : List α}
    (h : replaceFirst pred b l = some l') : b ∈ l' := by
  induction l generalizing l' with
  | nil => simp [replaceFirst] at h
  | cons x t ih =>
    rw [replaceFirst] at h
    by_cases hx : pred x = true
    · simp only [hx, if_pos] at h
      cases h
      exact List.mem_cons_self b t
    · simp only [hx] at h
      rcases Option.map_eq_some'.mp h with ⟨t', ht', rfl⟩
      exact List.mem_cons_of_mem x (ih ht')

theorem replaceFirst_mem_of_ne {pred : α → Bool} {b : α} {l l' : List α}
    (h : replaceFirst pred b l = some l') {a : α} (ha : a ∈ l) (hp : pred a = false) :
    a ∈ l' := by
  induction l generalizing l' with
  | nil => simp at ha
  | cons x t ih =>
    rw [replaceFirst] at h
    by_cases hx : pred x = true
    · simp only [hx, if_pos] at h
      cases h
      rcases List.mem_cons.mp ha with hax | hat
      · exact absurd (hax ▸ hx) (by simp [hp])
      · exact List.mem_cons_of_mem b hat
    · simp only [hx] at h
      rcases Option.map_eq_some'.mp h with ⟨t', ht', rfl⟩
      rcases List.mem_cons.mp ha with hax | hat
      · exact hax ▸ List.mem_cons_self x t'
      · exact List.mem_cons_of_mem x (ih ht' hat)

theorem replaceFirst_exists_match {pred : α → Bool} {b : α} {l l' : List α}
    (h : replaceFirst pred b l = some l') : ∃ x ∈ l, pred x = true := by
  induction l generalizing l' with
  | nil => simp [replaceFirst] at h
  | cons x t ih =>
    rw [replaceFirst] at h
    by_cases hx : pred x = true
    · exact ⟨x, List.mem_cons_self x t, hx⟩
    · simp only [hx] at h
      rcases Option.map_eq_some'.mp h with ⟨t', ht', rfl⟩
      rcases ih ht' with ⟨y, hy, hpy⟩
      exact ⟨y, List.mem_cons_of_mem x hy, hpy⟩

theorem replaceFirst_isSome_of_match {pred : α → Bool} {b : α} {l : List α}
    (h : ∃ x ∈ l, pred x = true) : ∃ l', replaceFirst pred b l = some l' := by
  induction l with
  | nil => simp at h
  | cons x t ih =>
    by_cases hx : pred x = true
    · exact ⟨b :: t, by simp [replaceFirst, hx]⟩
    · rcases h with ⟨y, hy, hpy⟩
      rcases List.mem_cons.mp hy with hyx | hyt
      · exact absurd (hyx ▸ hpy) (by simp [hx])
      · rcases ih ⟨y, hyt, hpy⟩ with ⟨t', ht'⟩
        exact ⟨x :: t', by simp [replaceFirst, hx, ht']⟩

theorem replaceFirst_eq_none {pred : α → Bool} {b : α} {l : List α}
    (h : ∀ x ∈ l, pred x = false) : replaceFirst pred b l = none := by
  induction l with
  | nil => rfl
  | cons x t ih =>
    rw [replaceFirst]
    simp only [h x (List.mem_cons_self x t)]
    rw [ih (fun y hy => h y (List.mem_cons_of_mem x hy))]
    rfl

theorem replaceFirst_decomp {pred : α → Bool} {b q : α} {pre post : List α}
    (hpre : ∀ x ∈ pre, pred x = false) (hq : pred q = true) :
    replaceFirst pred b (pre ++ q :: post) = some (pre ++ b :: post) := by
  induction pre with
  | nil => simp [replaceFirst, hq]
  | cons x t ih =>
    rw [List.cons_append, replaceFirst]
    simp only [hpre x (List.mem_cons_self x t)]
    rw [ih (fun y hy => hpre y (List.mem_cons_of_mem x hy))]
    rfl

theorem modifyFirst_decomp {pred : α → Bool} {f : α → α} {q : α} {pre post : List α}
    (hpre : ∀ x ∈ pre, pred x = false) (hq : pred q = true) :
    modifyFirst pred f (pre ++ q :: post) = some (pre ++ f q :: post) := by
  induction pre with
  | nil => simp [modifyFirst, hq]
  | cons x t ih =>
    rw [List.cons_append, modifyFirst]
    simp only [hpre x (List.mem_cons_self x t)]
    rw [ih (fun y hy => hpre y (List.mem_cons_of_mem x hy))]
    rfl

theorem modifyFirst_mem {pred : α → Bool} {f : α → α} {l l' : List α}
    (h : modifyFirst pred f l = some l') {a : α} (ha : a ∈ l') :
    a ∈ l ∨ ∃ x ∈ l, a = f x := by
  induction l generalizing l' with
  | nil => simp [modifyFirst] at h
  | cons x t ih =>
    rw [modifyFirst] at h
    by_cases hx : pred x = true
    · simp only [hx, if_pos] at h
      cases h
      rcases List.mem_cons.mp ha with hab | hat
      · exact Or.inr ⟨x, List.mem_cons_self x t, hab⟩
      · exact Or.inl (List.mem_cons_of_mem x hat)
    · simp only [hx] at h
      rcases Option.map_eq_some'.mp h with ⟨t', ht', rfl⟩
      rcases List.mem_cons.mp ha with hax | hat
      · exact Or.inl (hax ▸ List.mem_cons_self x t)
      · rcases ih ht' hat with h1 | ⟨y, hy, hay⟩
        · exact Or.inl (List.mem_cons_of_mem x h1)
        · exact Or.inr ⟨y, List.mem_cons_of_mem x hy, hay⟩

theorem extractFirst_mem {pred : α → Bool} {l : List α} {x : α} {l' : List α}
    (h : extractFirst pred l = some (x, l')) {a : α} (ha : a ∈ l') : a ∈ l := by
  induction l generalizing x l' with
  | nil => simp [extractFirst] at h
  | cons y t ih =>
    rw [extractFirst] at h
    by_cases hy : pred y = true
    · simp only [hy, if_pos] at h
      rcases h with ⟨rfl, rfl⟩
      exact List.mem_cons_of_mem y ha
    · simp only [hy] at h
      rcases Option.map_eq_some'.mp h with ⟨⟨z, t'⟩, ht', hz⟩
      simp only [Prod.mk.injEq] at hz
      rcases hz with ⟨rfl, rfl⟩
      rcases List.mem_cons.mp ha with hay | hat
      · exact hay ▸ List.mem_cons_self y t
      · exact List.mem_cons_of_mem y (ih ht' hat)

theorem extractFirst_decomp {pred : α → Bool} {q : α} {pre post : List α}
    (hpre : ∀ x ∈ pre, pred x = false) (hq : pred q = true) :
    extractFirst pred (pre ++ q :: post) = some (q, pre ++ post) := by
  induction pre with
  | nil => simp [extractFirst, hq]
  | cons x t ih =>
    rw [List.cons_append, extractFirst]
    simp only [hpre x (List.mem_cons_self x t)]
    rw [ih (fun y hy => hpre y (List.mem_cons_of_mem x hy))]
    rfl

/-! ## Helper lemmas about index loading -/

theorem create_sample_prompts_ne_nil (now : String) :
    (create_sample_prompts now).1.prompts ≠ [] := by
  unfold create_sample_prompts sampleRows
  simp

theorem seed_sample_prompts_ne_nil (now : String) (s : Store) :
    (seed_sample_prompts now s).2.prompts ≠ [] := by
  unfold seed_sample_prompts
  exact create_sample_prompts_ne_nil now

/-- Loading a stored index that is non-empty (or already seeded) neither
re-seeds nor changes the store. -/
theorem load_index_sync_stable {now : String} {s : Store} {index : PromptIndex}
    (h : s.index = some index) (h2 : index.prompts = [] → index.seeded = true) :
    load_index_sync now s = (s, index) := by
  unfold load_index_sync
  rw [h]
  by_cases hne : index.prompts = []
  · simp [hne, h2 hne]
  · simp [List.isEmpty_iff, hne]

/-- When the loaded index has no prompts, the load took the
"empty and already seeded" path: the store is untouched and the index was
stored as-is. -/
theorem load_index_sync_of_empty {now : String} {s : Store}
    (h : (load_index_sync now s).2.prompts = []) :
    (load_index_sync now s).1 = s ∧ s.index = some (load_index_sync now s).2 := by
  rcases hsi : s.index with _ | index
  · have hl : load_index_sync now s = seed_sample_prompts now s := by
      unfold load_index_sync
      rw [hsi]
    rw [hl] at h
    exact absurd h (seed_sample_prompts_ne_nil now s)
  · by_cases hb : (index.prompts.isEmpty && !index.seeded) = true
    · have hl : load_index_sync now s = seed_sample_prompts now s := by
        unfold load_index_sync
        rw [hsi]
        simp [hb]
      rw [hl] at h
      exact absurd h (seed_sample_prompts_ne_nil now s)
    · have hl : load_index_sync now s = (s, index) := by
        unfold load_index_sync
        rw [hsi]
        simp [hb]
      rw [hl]
      exact ⟨rfl, rfl⟩

theorem contains_iff_mem {l : List String} {a : String} :
    l.contains a = true ↔ a ∈ l :=
  List.elem_iff

/-- The prompt-list component of the `delete_folder` move loop is a plain
reassignment map (the file moves ride along in the first component). -/
theorem deleteFolder_fold_snd (folderName : String) (ps : List PromptMetadata) :
    ∀ files acc, (ps.foldl (deleteFolderStep folderName) (files, acc)).2 =
      acc ++ ps.map (fun q =>
        if q.folder = folderName then { q with folder := "uncategorized" } else q) := by
  induction ps with
  | nil => simp
  | cons q t ih =>
    intro files acc
    rw [List.foldl_cons, List.map_cons]
    by_cases hq : q.folder = folderName
    · simp only [deleteFolderStep, hq, if_pos]
      rw [ih]
      simp
    · simp only [deleteFolderStep, hq, if_neg, if_false]
      rw [ih]
      simp

/-- C1 (amended): every mutating Local Store operation preserves the
folder-membership invariant, provided that a `saveRecord` whose id already
exists carries a folder that is in the loaded `folders` list, and that
`deleteFolder` runs on an index whose `folders` list contains
`uncategorized`.  (Without those two provisos the invariant can be broken;
see `c1_counterexample`.) -/
theorem c1_local_ops_preserve_folder_invariant
    (now : String) (op : LocalOp) (s s' : Store)
    (hinv : Inv (load_index_sync now s).2)
    (hsafe : opSafe op (load_index_sync now s).2)
    (hok : applyLocal now op s = .ok s')
    (index' : PromptIndex) (hidx : s'.index = some index') :
    Inv index' := by
  rcases hli : load_index_sync now s with ⟨s₁, index⟩
  rw [hli] at hinv hsafe
  cases op with
  | save freshId p =>
    simp only [applyLocal, save_prompt, hli, Except.ok.injEq] at hok
    rcases hrf : replaceFirst (fun q => q.id == p.metadata.id)
        { p.metadata with updated := now, lastUsed := some now } index.prompts
        with _ | prompts₁
    · rw [hrf] at hok
      simp only [save_index_sync, write_prompt_content] at hok
      by_cases hc : index.folders.contains p.metadata.folder = true
      · rw [if_pos hc] at hok
        rw [← hok] at hidx
        simp only [Option.some.injEq] at hidx
        subst hidx
        intro a ha
        simp only at ha ⊢
        rcases List.mem_append.mp ha with hold | hnew
        · exact hinv a hold
        · rw [List.mem_singleton.mp hnew]
          exact contains_iff_mem.mp hc
      · rw [if_neg hc] at hok
        rw [← hok] at hidx
        simp only [Option.some.injEq] at hidx
        subst hidx
        intro a ha
        simp only at ha ⊢
        rcases List.mem_append.mp ha with hold | hnew
        · exact List.mem_append_left _ (hinv a hold)
        · rw [List.mem_singleton.mp hnew]
          exact List.mem_append_right _ (List.mem_singleton_self _)
    · rw [hrf] at hok
      simp only [save_index_sync, write_prompt_content] at hok
      rw [← hok] at hidx
      simp only [Option.some.injEq] at hidx
      subst hidx
      intro a ha
      simp only at ha ⊢
      rcases replaceFirst_mem hrf ha with hold | hb
      · exact hinv a hold
      · rcases replaceFirst_exists_match hrf with ⟨x, hx, hpx⟩
        rw [hb]
        exact hsafe ⟨x, hx, beq_iff_eq.mp hpx⟩
  | del id =>
    simp only [applyLocal, delete_prompt, hli] at hok
    rcases hex : extractFirst (fun q => q.id == id) index.prompts with _ | md
    · rw [hex] at hok
      exact absurd hok (by simp)
    · rw [hex] at hok
      simp only [save_index_sync, delete_prompt_content, Except.ok.injEq] at hok
      rw [← hok] at hidx
      simp only [Option.some.injEq] at hidx
      subst hidx
      intro a ha
      simp only at ha ⊢
      exact hinv a (extractFirst_mem hex ha)
  | addFolder name =>
    simp only [applyLocal, add_folder, hli] at hok
    by_cases h1 : (lowerStr (trimStr name)).isEmpty = true
    · rw [if_pos h1] at hok
      exact absurd hok (by simp)
    · rw [if_neg h1] at hok
      by_cases h2 : index.folders.contains (lowerStr (trimStr name)) = true
      · rw [if_pos h2] at hok
        exact absurd hok (by simp)
      · rw [if_neg h2] at hok
        simp only [save_index_sync, Except.ok.injEq] at hok
        rw [← hok] at hidx
        simp only [Option.some.injEq] at hidx
        subst hidx
        intro a ha
        simp only at ha ⊢
        exact List.mem_append_left _ (hinv a ha)
  | renameFolder oldName newName =>
    simp only [applyLocal, rename_folder, hli] at hok
    by_cases h1 : (lowerStr (trimStr newName)).isEmpty = true
    · rw [if_pos h1] at hok
      exact absurd hok (by simp)
    · rw [if_neg h1] at hok
      by_cases h2 : index.folders.contains (lowerStr (trimStr oldName)) = true
      · have h2m := contains_iff_mem.mp h2
        rw [if_neg (by simp [h2m])] at hok
        by_cases h3 : index.folders.contains (lowerStr (trimStr newName)) = true
        · rw [if_pos h3] at hok
          exact absurd hok (by simp)
        · rw [if_neg h3] at hok
          simp only [save_index_sync, Except.ok.injEq] at hok
          rw [← hok] at hidx
          simp only [Option.some.injEq] at hidx
          subst hidx
          intro a ha
          simp only at ha ⊢
          rcases @replaceFirst_isSome_of_match String
              (fun f => f == lowerStr (trimStr oldName))
              (lowerStr (trimStr newName))
              index.folders
              ⟨lowerStr (trimStr oldName), contains_iff_mem.mp h2, beq_iff_eq.mpr rfl⟩
              with ⟨fl, hfl⟩
          rw [hfl]
          simp only [Option.getD_some]
          rcases List.mem_map.mp ha with ⟨q, hq, hqa⟩
          by_cases hqf : q.folder = lowerStr (trimStr oldName)
          · rw [if_pos hqf] at hqa
            rw [← hqa]
            exact replaceFirst_self_mem hfl
          · rw [if_neg hqf] at hqa
            rw [← hqa]
            exact replaceFirst_mem_of_ne hfl (hinv q hq)
              (by simpa using hqf)
      · have h2m : lowerStr (trimStr oldName) ∉ index.folders :=
          fun hm => h2 (contains_iff_mem.mpr hm)
        rw [if_pos (by simp [h2m])] at hok
        exact absurd hok (by simp)
  | deleteFolder name =>
    simp only [applyLocal, delete_folder, hli] at hok
    by_cases h1 : lowerStr (trimStr name) = "uncategorized"
    · rw [if_pos h1] at hok
      exact absurd hok (by simp)
    · rw [if_neg h1] at hok
      by_cases h2 : index.folders.contains (lowerStr (trimStr name)) = true
      · have h2m := contains_iff_mem.mp h2
        rw [if_neg (by simp [h2m])] at hok
        simp only [save_index_sync, Except.ok.injEq] at hok
        rw [← hok] at hidx
        simp only [Option.some.injEq] at hidx
        subst hidx
        intro a ha
        simp only at ha ⊢
        rw [deleteFolder_fold_snd, List.nil_append] at ha
        rcases List.mem_map.mp ha with ⟨q, hq, hqa⟩
        by_cases hqf : q.folder = lowerStr (trimStr name)
        · rw [if_pos hqf] at hqa
      -- the moved prompt now points at uncategorized
          rw [← hqa]
          refine List.mem_filter.mpr ⟨hsafe, ?_⟩
          simp only [decide_eq_true_eq]
          exact fun he => h1 he.symm
        · rw [if_neg hqf] at hqa
          rw [← hqa]
          exact List.mem_filter.mpr ⟨hinv q hq, by simpa using hqf⟩
      · have h2m : lowerStr (trimStr name) ∉ index.folders :=
          fun hm => h2 (contains_iff_mem.mpr hm)
        rw [if_pos (by simp [h2m])] at hok
        exact absurd hok (by simp)
  | recordUsage id =>
    simp only [applyLocal, record_usage, hli] at hok
    rcases hmf : modifyFirst (fun q => q.id == id)
        (fun q => { q with useCount := (q.useCount + 1) % 2 ^ 32, lastUsed := some now })
        index.prompts with _ | prompts₁
    · rw [hmf] at hok
      exact absurd hok (by simp)
    · rw [hmf] at hok
      simp only [save_index_sync, Except.ok.injEq] at hok
      rw [← hok] at hidx
      simp only [Option.some.injEq] at hidx
      subst hidx
      intro a ha
      simp only at ha ⊢
      rcases modifyFirst_mem hmf ha with hold | ⟨x, hx, hax⟩
      · exact hinv a hold
      · rw [hax]
        exact hinv x hx

/-! ## Concrete fixtures used by counterexamples and witnesses -/

/-- A stored prompt used as a concrete fixture. -/
def fixtureMeta : PromptMetadata :=
  { id := "a", name := "Foo", folder := "uncategorized", description := "",
    filename := "foo.md", useCount := 0, lastUsed := none,
    created := "2024-01-01T00:00:00+00:00", updated := "2024-01-01T00:00:00+00:00",
    icon := none, color := none }

/-- A one-prompt index satisfying the folder-membership invariant. -/
def fixtureIndex : PromptIndex :=
  { prompts := [fixtureMeta], folders := ["uncategorized"], folderMeta := none,
    seeded := true }

/-- The store holding `fixtureIndex` and the fixture prompt's content. -/
def fixtureStore : Store :=
  { index := some fixtureIndex, files := [(("uncategorized", "foo.md"), "hello")] }

instance [DecidableEq e] [DecidableEq a] : DecidableEq (Except e a) := fun x y =>
  match x, y with
  | .error u, .error v =>
    if h : u = v then .isTrue (by rw [h]) else .isFalse (fun hh => h (Except.error.inj hh))
  | .error _, .ok _ => .isFalse (fun hh => Except.noConfusion hh)
  | .ok _, .error _ => .isFalse (fun hh => Except.noConfusion hh)
  | .ok u, .ok v =>
    if h : u = v then .isTrue (by rw [h]) else .isFalse (fun hh => h (Except.ok.inj hh))

/-- The caller-supplied metadata of the C1 counterexample: the stored id with
a folder that is not in the index's folder list. -/
def c1CeCallerMeta : PromptMetadata :=
  { fixtureMeta with folder := "newfolder" }

/-- The index after the C1 counterexample's `saveRecord`: the update kept the
caller's new folder without adding it to `folders`. -/
def c1CeIndex : PromptIndex :=
  { prompts := [{ c1CeCallerMeta with updated := "T1", lastUsed := some "T1" }],
    folders := ["uncategorized"], folderMeta := none, seeded := true }

/-- The store after the C1 counterexample's `saveRecord`. -/
def c1CeStore : Store :=
  { index := some c1CeIndex,
    files := [(("uncategorized", "foo.md"), "hello"), (("newfolder", "foo.md"), "c")] }

/-- C1 counterexample: `saveRecord` on an existing id whose caller-supplied
folder is not listed succeeds but breaks the folder-membership invariant, so
the claim as stated (preservation by every operation from every invariant
state) is false. -/
theorem c1_counterexample :
    Inv fixtureIndex ∧
    applyLocal "T1"
      (LocalOp.save "fresh" { metadata := c1CeCallerMeta, content := "c" })
      fixtureStore = .ok c1CeStore ∧
    c1CeStore.index = some c1CeIndex ∧ ¬Inv c1CeIndex := by
  refine ⟨by decide, by decide, by decide, by decide⟩

/-- The index after the C1 witness's `addFolder "work"`. -/
def c1WitIndex : PromptIndex :=
  { prompts := [fixtureMeta], folders := ["uncategorized", "work"], folderMeta := none,
    seeded := true }

/-- The store after the C1 witness's `addFolder "work"`. -/
def c1WitStore : Store :=
  { index := some c1WitIndex, files := [(("uncategorized", "foo.md"), "hello")] }

/-- Witness for the amended C1 theorem at a concrete operation. -/
theorem c1_witness :
    Inv (load_index_sync "T1" fixtureStore).2 ∧
    opSafe (LocalOp.addFolder "Work") (load_index_sync "T1" fixtureStore).2 ∧
    applyLocal "T1" (LocalOp.addFolder "Work") fixtureStore = .ok c1WitStore ∧
    c1WitStore.index = some c1WitIndex ∧
    Inv c1WitIndex :=
  ⟨by decide, by decide, by decide, by decide,
    c1_local_ops_preserve_folder_invariant "T1" (LocalOp.addFolder "Work")
      fixtureStore c1WitStore (by decide) (by decide) (by decide)
      c1WitIndex (by decide)⟩

/-! ## Claim C2: metadata on `saveRecord` of an existing id -/

/-- The metadata `save_prompt` stores on its update path: the caller-supplied
metadata with `updated` and `lastUsed` set to now. -/
def saveUpdatedMeta (pr : Prompt) (now : String) : PromptMetadata :=
  { pr.metadata with updated := now, lastUsed := some now }

/-- C2 (amended): when `saveRecord` is called with an id that already exists
in the index (written as a first-match decomposition of the loaded prompt
list), the stored metadata is the caller-supplied metadata with `updated` and
`lastUsed` set to now; in particular `created` (and every other field) comes
from the caller, not from the pre-call stored entry.  All other index entries
and their positions are untouched. -/
theorem c2_save_update_stores_caller_metadata
    (freshId now : String) (s : Store) (pr : Prompt) (idx : PromptIndex)
    (pre post : List PromptMetadata) (q : PromptMetadata)
    (hload : load_index_sync now s = (s, idx))
    (hdecomp : idx.prompts = pre ++ q :: post)
    (hpre : ∀ r ∈ pre, r.id ≠ pr.metadata.id)
    (hq : q.id = pr.metadata.id) :
    (save_prompt freshId now s pr).2 = saveUpdatedMeta pr now ∧
    (save_prompt freshId now s pr).1.index =
      some { idx with prompts := pre ++ saveUpdatedMeta pr now :: post } ∧
    (saveUpdatedMeta pr now).created = pr.metadata.created ∧
    (saveUpdatedMeta pr now).name = pr.metadata.name ∧
    (saveUpdatedMeta pr now).folder = pr.metadata.folder ∧
    (saveUpdatedMeta pr now).description = pr.metadata.description ∧
    (saveUpdatedMeta pr now).filename = pr.metadata.filename ∧
    (saveUpdatedMeta pr now).useCount = pr.metadata.useCount ∧
    (saveUpdatedMeta pr now).updated = now ∧
    (saveUpdatedMeta pr now).lastUsed = some now := by
  have hrf : replaceFirst (fun r => r.id == pr.metadata.id)
      (saveUpdatedMeta pr now) idx.prompts = some (pre ++ saveUpdatedMeta pr now :: post) := by
    rw [hdecomp]
    exact replaceFirst_decomp
      (fun r hr => beq_eq_false_iff_ne.mpr (hpre r hr))
      (beq_iff_eq.mpr hq)
  simp only [save_prompt, hload, saveUpdatedMeta] at hrf ⊢
  rw [hrf]
  simp [save_index_sync, write_prompt_content, saveUpdatedMeta]

/-- The caller metadata of the C2 counterexample: same id as the stored
prompt, different `created`. -/
def c2CeCallerMeta : PromptMetadata :=
  { fixtureMeta with created := "2021-06-01T00:00:00+00:00" }

/-- The index after the C2 counterexample's update. -/
def c2CeIndex : PromptIndex :=
  { prompts := [{ c2CeCallerMeta with updated := "T1", lastUsed := some "T1" }],
    folders := ["uncategorized"], folderMeta := none, seeded := true }

/-- C2 counterexample: the pre-call stored `created` of id `a` is
`2024-01-01...`, the caller supplies `2021-06-01...`, and after the call the
stored `created` is the caller's value — so the claim that `created` (and the
other fields) keep their pre-call stored values is false. -/
theorem c2_counterexample :
    fixtureIndex.prompts.map (fun p => (p.id, p.created)) =
      [("a", "2024-01-01T00:00:00+00:00")] ∧
    (save_prompt "fresh" "T1" fixtureStore
        { metadata := c2CeCallerMeta, content := "c" }).1.index = some c2CeIndex ∧
    c2CeIndex.prompts.map (fun p => (p.id, p.created)) =
      [("a", "2021-06-01T00:00:00+00:00")] := by
  refine ⟨by decide, by decide, by decide⟩

/-- Witness for the amended C2 theorem at a concrete update. -/
theorem c2_witness :
    load_index_sync "T1" fixtureStore = (fixtureStore, fixtureIndex) ∧
    fixtureIndex.prompts = [] ++ fixtureMeta :: [] ∧
    fixtureMeta.id = (Prompt.mk fixtureMeta "new").metadata.id ∧
    (save_prompt "fresh" "T1" fixtureStore (Prompt.mk fixtureMeta "new")).2 =
      saveUpdatedMeta (Prompt.mk fixtureMeta "new") "T1" :=
  ⟨by decide, by decide, by decide,
    (c2_save_update_stores_caller_metadata "fresh" "T1" fixtureStore
      (Prompt.mk fixtureMeta "new") fixtureIndex [] [] fixtureMeta
      (by decide) (by decide) (by simp) (by decide)).1⟩

/-! ## Claim C9: `saveRecord` with a fresh non-empty id -/

/-- C9: a `saveRecord` whose id is non-empty and not in the index takes the
create path: it appends a new entry that keeps the caller's id, with
`useCount = 0` and `created`, `updated`, `lastUsed` all set to now, and with
the caller's filename when that is non-empty (and the slugified name
otherwise).  It does not fail and does not touch existing entries. -/
theorem c9_save_new_id_creates
    (freshId now : String) (s : Store) (pr : Prompt) (idx : PromptIndex)
    (hload : load_index_sync now s = (s, idx))
    (hnew : ∀ q ∈ idx.prompts, q.id ≠ pr.metadata.id)
    (hid : pr.metadata.id ≠ "") :
    (save_prompt freshId now s pr).2.id = pr.metadata.id ∧
    (save_prompt freshId now s pr).2.filename =
      (if pr.metadata.filename.isEmpty then slugify pr.metadata.name ++ ".md"
       else pr.metadata.filename) ∧
    (pr.metadata.filename ≠ "" →
      (save_prompt freshId now s pr).2.filename = pr.metadata.filename) ∧
    (save_prompt freshId now s pr).2.name = pr.metadata.name ∧
    (save_prompt freshId now s pr).2.folder = pr.metadata.folder ∧
    (save_prompt freshId now s pr).2.useCount = 0 ∧
    (save_prompt freshId now s pr).2.created = now ∧
    (save_prompt freshId now s pr).2.updated = now ∧
    (save_prompt freshId now s pr).2.lastUsed = some now ∧
    ∃ idx', (save_prompt freshId now s pr).1.index = some idx' ∧
      idx'.prompts = idx.prompts ++ [(save_prompt freshId now s pr).2] := by
  have hrf : replaceFirst (fun r => r.id == pr.metadata.id)
      (saveUpdatedMeta pr now) idx.prompts = none :=
    replaceFirst_eq_none (fun r hr => beq_eq_false_iff_ne.mpr (hnew r hr))
  have hidf : pr.metadata.id.isEmpty = false := by
    cases hie : pr.metadata.id.isEmpty
    · rfl
    · exact absurd ((String.isEmpty_iff _).mp hie) hid
  simp only [save_prompt, hload, saveUpdatedMeta] at hrf ⊢
  rw [hrf]
  simp only [hidf, Bool.false_eq_true, if_false]
  refine ⟨by simp, by simp, ?_, by simp, by simp, by simp, by simp, by simp, by simp, ?_⟩
  · intro hfn
    have hfnf : pr.metadata.filename.isEmpty = false := by
      cases hie : pr.metadata.filename.isEmpty
      · rfl
      · exact absurd ((String.isEmpty_iff _).mp hie) hfn
    simp [hfnf]
  · by_cases hc : pr.metadata.folder ∈ idx.folders
    · simp [save_index_sync, write_prompt_content, hc]
    · simp [save_index_sync, write_prompt_content, hc]

/-- The caller metadata of the C9 witness: a fresh id `b` with stale
counter and timestamps that the create path must reset. -/
def c9WitCallerMeta : PromptMetadata :=
  { id := "b", name := "Bar", folder := "uncategorized", description := "",
    filename := "bar.md", useCount := 7, lastUsed := none,
    created := "old", updated := "old", icon := none, color := none }

/-- The metadata the C9 witness's create stores. -/
def c9WitNewMeta : PromptMetadata :=
  { c9WitCallerMeta with
    useCount := 0, lastUsed := some "T1", created := "T1", updated := "T1" }

/-- The index after the C9 witness's create: prompt `b` appended. -/
def c9WitIndex : PromptIndex :=
  { prompts := [fixtureMeta, c9WitNewMeta], folders := ["uncategorized"],
    folderMeta := none, seeded := true }

/-- Witness for the C9 theorem at a concrete create. -/
theorem c9_witness :
    load_index_sync "T1" fixtureStore = (fixtureStore, fixtureIndex) ∧
    (∀ q ∈ fixtureIndex.prompts, q.id ≠ "b") ∧
    (save_prompt "fresh" "T1" fixtureStore (Prompt.mk c9WitCallerMeta "body")).2.id = "b" ∧
    (save_prompt "fresh" "T1" fixtureStore (Prompt.mk c9WitCallerMeta "body")).2.filename =
      "bar.md" ∧
    (save_prompt "fresh" "T1" fixtureStore (Prompt.mk c9WitCallerMeta "body")).1.index =
      some c9WitIndex :=
  ⟨by decide, by decide,
    (c9_save_new_id_creates "fresh" "T1" fixtureStore
      (Prompt.mk c9WitCallerMeta "body") fixtureIndex
      (by decide) (by decide) (by decide)).1,
    (c9_save_new_id_creates "fresh" "T1" fixtureStore
      (Prompt.mk c9WitCallerMeta "body") fixtureIndex
      (by decide) (by decide) (by decide)).2.2.1 (by decide),
    by decide⟩

/-! ## Claim C10: `recordUsage` -/

/-- C10 (amended): for an id present in the index (first-match decomposition)
whose counter will not overflow the `u32`, `recordUsage` increments that
prompt's `useCount` by exactly one, sets its `lastUsed` to now, and changes
nothing else: the other prompts, the folder list, the folder metadata, the
seeded flag and every content file are all unchanged. -/
theorem c10_record_usage_increments_only
    (now : String) (s : Store) (id : String) (idx : PromptIndex)
    (pre post : List PromptMetadata) (q : PromptMetadata)
    (hload : load_index_sync now s = (s, idx))
    (hdecomp : idx.prompts = pre ++ q :: post)
    (hpre : ∀ r ∈ pre, r.id ≠ id) (hq : q.id = id)
    (hlt : q.useCount + 1 < 2 ^ 32) :
    record_usage now s id = .ok { s with index := some { idx with prompts :=
      pre ++ { q with useCount := q.useCount + 1, lastUsed := some now } :: post } } := by
  have hmf : modifyFirst (fun r => r.id == id)
      (fun r => { r with useCount := (r.useCount + 1) % 2 ^ 32, lastUsed := some now })
      idx.prompts =
      some (pre ++ { q with useCount := (q.useCount + 1) % 2 ^ 32, lastUsed := some now } :: post) := by
    rw [hdecomp]
    exact modifyFirst_decomp
      (fun r hr => beq_eq_false_iff_ne.mpr (hpre r hr))
      (beq_iff_eq.mpr hq)
  simp only [record_usage, hload]
  rw [hmf, Nat.mod_eq_of_lt hlt]
  rfl

/-- The stored prompt of the C10 counterexample: `useCount` at `u32::MAX`. -/
def c10CeMeta : PromptMetadata :=
  { fixtureMeta with useCount := 4294967295 }

/-- The index of the C10 counterexample before the call. -/
def c10CeStartIndex : PromptIndex :=
  { prompts := [c10CeMeta], folders := ["uncategorized"],
    folderMeta := none, seeded := true }

/-- The store of the C10 counterexample. -/
def c10CeStore : Store :=
  { index := some c10CeStartIndex,
    files := [(("uncategorized", "foo.md"), "hello")] }

/-- The index after the C10 counterexample: the counter wrapped to zero. -/
def c10CeResultIndex : PromptIndex :=
  { prompts := [{ c10CeMeta with useCount := 0, lastUsed := some "T1" }],
    folders := ["uncategorized"], folderMeta := none, seeded := true }

/-- C10 counterexample: at `useCount = u32::MAX` the counter wraps to `0`
instead of incrementing by one (release-build `u32` semantics), so the claim
for every index and present id is false. -/
theorem c10_counterexample :
    record_usage "T1" c10CeStore "a" = .ok { c10CeStore with index := some c10CeResultIndex } ∧
    c10CeResultIndex.prompts.map (fun p => p.useCount) = [0] ∧
    c10CeMeta.useCount + 1 ≠ 0 := by
  refine ⟨by decide, by decide, by decide⟩

/-- The fixture prompt after the C10 witness's usage recording. -/
def c10WitMeta : PromptMetadata :=
  { fixtureMeta with
    useCount := fixtureMeta.useCount + 1, lastUsed := some "T1" }

/-- Witness for the amended C10 theorem at a concrete usage recording. -/
theorem c10_witness :
    load_index_sync "T1" fixtureStore = (fixtureStore, fixtureIndex) ∧
    fixtureIndex.prompts = [] ++ fixtureMeta :: [] ∧
    fixtureMeta.useCount + 1 < 2 ^ 32 ∧
    record_usage "T1" fixtureStore "a" = .ok { fixtureStore with
      index := some { fixtureIndex with
                      prompts := [] ++ c10WitMeta :: [] } } :=
  ⟨by decide, by decide, by decide,
    c10_record_usage_increments_only "T1" fixtureStore "a" fixtureIndex
      [] [] fixtureMeta (by decide) (by decide) (by simp) (by decide) (by decide)⟩

/-! ## Claim C8: migration from the anonymous partition -/

theorem filesGet_put_eq (files : List ((String × String) × String)) (f n c : String) :
    filesGet (filesPut files f n c) f n = some c := by
  unfold filesPut
  by_cases h : files.any (fun e => e.1 = (f, n)) = true
  · rw [if_pos h]
    induction files with
    | nil => simp at h
    | cons e t ih =>
      by_cases he : e.1 = (f, n)
      · simp [filesGet, List.find?_cons, he]
      · simp only [List.any_cons, he, decide_False, Bool.false_or] at h
        simp only [List.map_cons, he, if_false]
        unfold filesGet at ih ⊢
        simp only [List.find?_cons, he, decide_False]
        exact ih h
  · rw [if_neg h]
    induction files with
    | nil => simp [filesGet, List.find?_cons]
    | cons e t ih =>
      simp only [List.any_cons, Bool.or_eq_true, not_or] at h
      have he : ¬e.1 = (f, n) := by
        intro hh
        exact h.1 (by simp [hh])
      simp only [List.cons_append]
      unfold filesGet at ih ⊢
      simp only [List.find?_cons, he, decide_False]
      exact ih (by simpa using h.2)

theorem filesGet_map_overwrite (t : List ((String × String) × String))
    (k1 : String × String) (c f n : String) (hk : ¬k1 = (f, n)) :
    filesGet (t.map (fun e => if e.1 = k1 then (e.1, c) else e)) f n =
      filesGet t f n := by
  induction t with
  | nil => rfl
  | cons e t ih =>
    unfold filesGet at ih ⊢
    simp only [List.map_cons, List.find?_cons]
    by_cases he1 : e.1 = k1
    · have hef : ¬e.1 = (f, n) := fun hh => hk (he1 ▸ hh)
      simp only [if_pos he1, List.find?_cons, Prod.fst, hef, decide_False]
      exact ih
    · simp only [if_neg he1, List.find?_cons]
      by_cases hef : e.1 = (f, n)
      · simp [hef]
      · simp only [hef, decide_False]
        exact ih

theorem filesGet_put_ne (files : List ((String × String) × String))
    (f1 n1 c f n : String) (h : ¬(f1, n1) = (f, n)) :
    filesGet (filesPut files f1 n1 c) f n = filesGet files f n := by
  unfold filesPut
  by_cases ha : files.any (fun e => e.1 = (f1, n1)) = true
  · rw [if_pos ha]
    exact filesGet_map_overwrite files (f1, n1) c f n h
  · rw [if_neg ha]
    induction files with
    | nil => simp [filesGet, List.find?_cons, h]
    | cons e t ih =>
      unfold filesGet at ih ⊢
      simp only [List.cons_append, List.find?_cons]
      by_cases hef : e.1 = (f, n)
      · simp [hef]
      · simp only [hef, decide_False]
        simp only [List.any_cons, Bool.or_eq_true, not_or] at ha
        exact ih (by simpa using ha.2)

theorem filesGet_copy_of_not_mem (src : List ((String × String) × String))
    (f n : String) (h : ∀ e ∈ src, ¬e.1 = (f, n)) :
    ∀ dst, filesGet (copy_dir_recursive src dst) f n = filesGet dst f n := by
  induction src with
  | nil => intro dst; rfl
  | cons x t ih =>
    intro dst
    unfold copy_dir_recursive at ih ⊢
    rw [List.foldl_cons]
    rw [ih (fun e he => h e (List.mem_cons_of_mem x he))]
    exact filesGet_put_ne dst x.1.1 x.1.2 x.2 f n
      (by simpa using h x (List.mem_cons_self x t))

/-- Every source entry of a recursive copy is readable at the destination
with its own content, provided the source's keys are distinct (true of a
real directory tree, where paths are unique). -/
theorem filesGet_copy_of_mem (src : List ((String × String) × String))
    (hnd : (src.map (fun e => e.1)).Nodup) :
    ∀ dst, ∀ e ∈ src, filesGet (copy_dir_recursive src dst) e.1.1 e.1.2 = some e.2 := by
  induction src with
  | nil => intro dst e he; simp at he
  | cons x t ih =>
    intro dst e he
    simp only [List.map_cons, List.nodup_cons] at hnd
    unfold copy_dir_recursive
    rw [List.foldl_cons]
    rcases List.mem_cons.mp he with rfl | het
    · have hnot : ∀ y ∈ t, ¬y.1 = (e.1.1, e.1.2) := by
        intro y hy hk
        apply hnd.1
        have hye : y.1 = e.1 := hk.trans (Prod.mk.eta)
        rw [← hye]
        exact List.mem_map.mpr ⟨y, hy, rfl⟩
      have := filesGet_copy_of_not_mem t e.1.1 e.1.2 hnot
        (filesPut dst e.1.1 e.1.2 e.2)
      unfold copy_dir_recursive at this
      rw [this]
      exact filesGet_put_eq dst e.1.1 e.1.2 e.2
    · exact ih hnd.2 (filesPut dst x.1.1 x.1.2 x.2) e het

/-- C8: `migrate_from_anonymous` is a no-op returning `false` when the user
partition already has an index file or when no anonymous index exists; and
otherwise copies the anonymous index file and content tree into the user
partition and returns `true`.  The anonymous partition is unmodified in
every case. -/
theorem c8_migrate_from_anonymous (user anon : Partition) :
    (∀ x, user.indexFile = some x →
      migrate_from_anonymous true user anon = (false, user, anon)) ∧
    (user.indexFile = none → anon.indexFile = none →
      migrate_from_anonymous true user anon = (false, user, anon)) ∧
    (∀ ic, user.indexFile = none → anon.indexFile = some ic →
      (migrate_from_anonymous true user anon).1 = true ∧
      (migrate_from_anonymous true user anon).2.1.indexFile = some ic ∧
      (migrate_from_anonymous true user anon).2.2 = anon ∧
      (∀ srcFiles, anon.promptsDir = some srcFiles →
        ((srcFiles.map (fun e => e.1)).Nodup →
          ∀ e ∈ srcFiles, ∃ tree,
            (migrate_from_anonymous true user anon).2.1.promptsDir = some tree ∧
            filesGet tree e.1.1 e.1.2 = some e.2)) ∧
      (anon.promptsDir = none →
        (migrate_from_anonymous true user anon).2.1.promptsDir = user.promptsDir)) := by
  refine ⟨?_, ?_, ?_⟩
  · intro x hx
    simp [migrate_from_anonymous, hx]
  · intro hu ha
    simp [migrate_from_anonymous, hu, ha]
  · intro ic hu ha
    refine ⟨?_, ?_, ?_, ?_, ?_⟩
    · rcases hpd : anon.promptsDir with _ | srcFiles <;>
        simp [migrate_from_anonymous, hu, ha, hpd]
    · rcases hpd : anon.promptsDir with _ | srcFiles <;>
        simp [migrate_from_anonymous, hu, ha, hpd]
    · rcases hpd : anon.promptsDir with _ | srcFiles <;>
        simp [migrate_from_anonymous, hu, ha, hpd]
    · intro src hsrc hnd e he
      refine ⟨copy_dir_recursive src (user.promptsDir.getD []), ?_, ?_⟩
      · simp [migrate_from_anonymous, hu, ha, hsrc]
      · exact filesGet_copy_of_mem src hnd (user.promptsDir.getD []) e he
    · intro hn
      simp [migrate_from_anonymous, hu, ha, hn]

/-- Witness for the C8 theorem: a migration that copies one record. -/
theorem c8_witness :
    (migrate_from_anonymous true
      { indexFile := none, promptsDir := none }
      { indexFile := some "anon-index", promptsDir := some [(("uncategorized", "a.md"), "hi")] }).1
      = true ∧
    (migrate_from_anonymous true
      { indexFile := none, promptsDir := none }
      { indexFile := some "anon-index", promptsDir := some [(("uncategorized", "a.md"), "hi")] }).2.1.indexFile
      = some "anon-index" ∧
    (migrate_from_anonymous true
      { indexFile := none, promptsDir := none }
      { indexFile := some "anon-index", promptsDir := some [(("uncategorized", "a.md"), "hi")] }).2.2
      = { indexFile := some "anon-index", promptsDir := some [(("uncategorized", "a.md"), "hi")] } :=
  ⟨((c8_migrate_from_anonymous
      { indexFile := none, promptsDir := none }
      { indexFile := some "anon-index", promptsDir := some [(("uncategorized", "a.md"), "hi")] }).2.2
      "anon-index" rfl rfl).1,
   ((c8_migrate_from_anonymous
      { indexFile := none, promptsDir := none }
      { indexFile := some "anon-index", promptsDir := some [(("uncategorized", "a.md"), "hi")] }).2.2
      "anon-index" rfl rfl).2.1,
   ((c8_migrate_from_anonymous
      { indexFile := none, promptsDir := none }
      { indexFile := some "anon-index", promptsDir := some [(("uncategorized", "a.md"), "hi")] }).2.2
      "anon-index" rfl rfl).2.2.1⟩

/-! ## Claim C3: the empty-upload guard of `syncToRemote` -/

/-- C3: in an authenticated state whose loaded local index has zero prompts,
`sync_to_firestore` returns the safety error, performs no network call, and
leaves the local store exactly as it was (the remote is untouched because no
call reaches it).  The result does not depend on what an upload would have
returned. -/
theorem c3_sync_to_remote_refuses_empty_upload
    (now : String) (uploadResult : Except String Unit) (svc : SyncState)
    (userId idToken : String)
    (hu : svc.userId = some userId) (ht : svc.idToken = some idToken)
    (hempty : (load_index_sync now svc.localStore).2.prompts = []) :
    sync_to_firestore now uploadResult svc =
      (.error "Cannot sync empty local data to cloud. This is a safety measure to prevent data loss.",
       svc.localStore, []) := by
  have hst := load_index_sync_of_empty hempty
  simp only [sync_to_firestore, hu, ht]
  rcases hli : load_index_sync now svc.localStore with ⟨s1, idx⟩
  rw [hli] at hempty hst
  simp only at hempty hst
  simp [List.isEmpty_iff, hempty, hst.1]

/-- The authenticated sync-service fixture. -/
def svcFixture : SyncState :=
  { localStore := fixtureStore, userId := some "u1", idToken := some "tok",
    syncEnabled := true }

/-- An index with no prompts that has already been seeded (the state after a
user intentionally empties the library). -/
def emptySeededIndex : PromptIndex :=
  { prompts := [], folders := ["uncategorized"], folderMeta := none, seeded := true }

/-- The authenticated sync-service fixture over an empty (but seeded) local
index. -/
def svcEmptyFixture : SyncState :=
  { localStore := { index := some emptySeededIndex, files := [] },
    userId := some "u1", idToken := some "tok", syncEnabled := true }

/-- Witness for the C3 theorem: an authenticated service over an empty
seeded index refuses the upload with no network calls. -/
theorem c3_witness :
    svcEmptyFixture.userId = some "u1" ∧
    svcEmptyFixture.idToken = some "tok" ∧
    (load_index_sync "T1" svcEmptyFixture.localStore).2.prompts = [] ∧
    sync_to_firestore "T1" (.ok ()) svcEmptyFixture =
      (.error "Cannot sync empty local data to cloud. This is a safety measure to prevent data loss.",
       svcEmptyFixture.localStore, []) :=
  ⟨rfl, rfl, by decide,
    c3_sync_to_remote_refuses_empty_upload "T1" (.ok ()) svcEmptyFixture
      "u1" "tok" rfl rfl (by decide)⟩

/-! ## Claim C4: the empty-download guard of `syncFromRemote` -/

/-- C4: in an authenticated state whose stored local index has one or more
prompts, a download that succeeds with zero remote prompts makes
`sync_from_firestore` return success while leaving the local store (index
and every content file) exactly as it was. -/
theorem c4_sync_from_remote_skips_empty_download
    (now : String) (svc : SyncState) (userId idToken : String)
    (ridx : PromptIndex) (rprompts : List Prompt) (lidx : PromptIndex)
    (hu : svc.userId = some userId) (ht : svc.idToken = some idToken)
    (hl : svc.localStore.index = some lidx) (hlne : lidx.prompts ≠ [])
    (hr : ridx.prompts = []) :
    sync_from_firestore now svc (.ok (ridx, rprompts)) = (.ok (), svc.localStore) := by
  have hload : load_index_sync now svc.localStore = (svc.localStore, lidx) :=
    load_index_sync_stable hl (fun hh => absurd hh hlne)
  simp only [sync_from_firestore, hu, ht, hload]
  simp [List.isEmpty_iff, hr, List.length_pos, hlne]

/-- Witness for the C4 theorem: remote returns zero prompts while local has
one; the call succeeds and changes nothing locally. -/
theorem c4_witness :
    svcFixture.userId = some "u1" ∧
    svcFixture.idToken = some "tok" ∧
    svcFixture.localStore.index = some fixtureIndex ∧
    fixtureIndex.prompts ≠ [] ∧
    sync_from_firestore "T1" svcFixture (.ok (emptySeededIndex, [])) =
      (.ok (), svcFixture.localStore) :=
  ⟨rfl, rfl, rfl, by decide,
    c4_sync_from_remote_skips_empty_download "T1" svcFixture "u1" "tok"
      emptySeededIndex [] fixtureIndex rfl rfl rfl (by decide) rfl⟩

/-! ## Claim C5: mirror failures never change an operation's result -/

/-- C5: for every mutating operation performed through the authenticated
sync orchestrator, the result handed to the caller does not depend on the
outcome of the remote mirror call, and whenever the local step succeeds the
operation reports success.  (`m` and `m2` are two arbitrary outcomes of the
mirror call, e.g. success and a network failure.) -/
theorem c5_mirror_outcome_never_changes_result
    (freshId now : String) (svc : SyncState) (m m2 : Except String Unit)
    (userId idToken : String)
    (_hu : svc.userId = some userId) (_ht : svc.idToken = some idToken)
    (_he : svc.syncEnabled = true) :
    (∀ p, (svc_save_prompt freshId now m svc p).1 =
            .ok (save_prompt freshId now svc.localStore p).2 ∧
          (svc_save_prompt freshId now m svc p).1 =
            (svc_save_prompt freshId now m2 svc p).1) ∧
    (∀ id st, delete_prompt now svc.localStore id = .ok st →
      (svc_delete_prompt now m svc id).1 = .ok () ∧
      (svc_delete_prompt now m svc id).1 = (svc_delete_prompt now m2 svc id).1) ∧
    (∀ name st, add_folder now svc.localStore name = .ok st →
      (svc_add_folder now m svc name).1 = .ok () ∧
      (svc_add_folder now m svc name).1 = (svc_add_folder now m2 svc name).1) ∧
    (∀ o n2 st, rename_folder now svc.localStore o n2 = .ok st →
      (svc_rename_folder now m svc o n2).1 = .ok () ∧
      (svc_rename_folder now m svc o n2).1 = (svc_rename_folder now m2 svc o n2).1) ∧
    (∀ name st, delete_folder now svc.localStore name = .ok st →
      (svc_delete_folder now m svc name).1 = .ok () ∧
      (svc_delete_folder now m svc name).1 = (svc_delete_folder now m2 svc name).1) ∧
    (∀ id st, record_usage now svc.localStore id = .ok st →
      (svc_record_usage now m svc id).1 = .ok () ∧
      (svc_record_usage now m svc id).1 = (svc_record_usage now m2 svc id).1) := by
  refine ⟨?_, ?_, ?_, ?_, ?_, ?_⟩
  · intro p
    exact ⟨rfl, rfl⟩
  · intro id st hst
    simp [svc_delete_prompt, hst]
  · intro name st hst
    simp [svc_add_folder, hst, svcMetaEpilogue]
  · intro o n2 st hst
    simp [svc_rename_folder, hst, svcMetaEpilogue]
  · intro name st hst
    simp [svc_delete_folder, hst, svcMetaEpilogue]
  · intro id st hst
    simp [svc_record_usage, hst]

/-- Witness for the C5 theorem: a failed mirror call and a successful one
give the same, successful, result for a concrete save and usage record. -/
theorem c5_witness :
    svcFixture.userId = some "u1" ∧
    svcFixture.idToken = some "tok" ∧
    svcFixture.syncEnabled = true ∧
    (svc_save_prompt "fresh" "T1" (.error "network down") svcFixture
        (Prompt.mk fixtureMeta "body")).1 =
      .ok (save_prompt "fresh" "T1" svcFixture.localStore (Prompt.mk fixtureMeta "body")).2 ∧
    (svc_save_prompt "fresh" "T1" (.error "network down") svcFixture
        (Prompt.mk fixtureMeta "body")).1 =
      (svc_save_prompt "fresh" "T1" (.ok ()) svcFixture (Prompt.mk fixtureMeta "body")).1 :=
  ⟨rfl, rfl, rfl,
    ((c5_mirror_outcome_never_changes_result "fresh" "T1" svcFixture
      (.error "network down") (.ok ()) "u1" "tok" rfl rfl rfl).1
      (Prompt.mk fixtureMeta "body")).1,
    ((c5_mirror_outcome_never_changes_result "fresh" "T1" svcFixture
      (.error "network down") (.ok ()) "u1" "tok" rfl rfl rfl).1
      (Prompt.mk fixtureMeta "body")).2⟩

/-! ## Claim C6: exact name match versus substring name match -/

/-- The recency tiebreaker is non-negative whenever `exp` is non-negative
(true of the real and IEEE exponential). -/
theorem tiebreaker_nonneg (c : Clock) (p : PromptMetadata)
    (hexp0 : ∀ x, 0 ≤ c.expFn x) :
    0 ≤ calculate_recency_tiebreaker c p := by
  unfold calculate_recency_tiebreaker
  rcases hl : p.lastUsed with _ | ts
  · norm_num
  · rcases hh : c.hoursSince ts with _ | hours
    · simp only [hh]
      norm_num
    · simp only [hh]
      exact mul_nonneg (by norm_num [RECENCY_TIEBREAKER_MAX]) (hexp0 _)

/-- The recency tiebreaker is at most 10: its `exp` argument is never
positive, and `exp` is at most one there. -/
theorem tiebreaker_le_ten (c : Clock) (p : PromptMetadata)
    (hexp1 : ∀ x, x ≤ 0 → c.expFn x ≤ 1) :
    calculate_recency_tiebreaker c p ≤ 10 := by
  unfold calculate_recency_tiebreaker
  rcases hl : p.lastUsed with _ | ts
  · norm_num
  · rcases hh : c.hoursSince ts with _ | hours
    · simp only [hh]
      norm_num
    · simp only [hh]
      have harg : -(0.693 / RECENCY_HALF_LIFE_HOURS) * max hours 0 ≤ 0 := by
        apply mul_nonpos_of_nonpos_of_nonneg
        · apply neg_nonpos_of_nonneg
          norm_num [RECENCY_HALF_LIFE_HOURS]
        · exact le_max_right hours 0
      have hb := hexp1 _ harg
      calc RECENCY_TIEBREAKER_MAX * c.expFn (-(0.693 / RECENCY_HALF_LIFE_HOURS) * max hours 0)
      _ ≤ RECENCY_TIEBREAKER_MAX * 1 :=
        mul_le_mul_of_nonneg_left hb (by norm_num [RECENCY_TIEBREAKER_MAX])
      _ ≤ 10 := by norm_num [RECENCY_TIEBREAKER_MAX]

/-- An exact (case-folded) name match scores at least
`SCORE_NAME_MATCH * MULT_EXACT = 200`, whatever the folder, description,
content and recency contribute. -/
theorem calc_score_exact_ge (s : Store) (c : Clock) (p : PromptMetadata)
    (q : String) (hexp0 : ∀ x, 0 ≤ c.expFn x) (hname : lowerStr p.name = q) :
    200 ≤ calculate_score s c p q := by
  have ht := tiebreaker_nonneg c p hexp0
  unfold calculate_score
  rw [hname]
  by_cases hf : strContains (lowerStr p.folder) q = true <;>
    by_cases hd : strContains (lowerStr p.description) q = true <;>
      norm_num [hf, hd, SCORE_NAME_MATCH, SCORE_FOLDER_MATCH,
        SCORE_DESCRIPTION_MATCH, MULT_EXACT] <;>
      linarith

/-- A name that contains the query only as an internal substring (neither an
exact match nor a prefix) scores at most `100 + 50 + 30 + 10 = 190`. -/
theorem calc_score_substring_le (s : Store) (c : Clock) (p : PromptMetadata)
    (q : String) (hexp1 : ∀ x, x ≤ 0 → c.expFn x ≤ 1)
    (hne : ¬lowerStr p.name = q)
    (hnp : strStarts (lowerStr p.name) q = false)
    (hsub : strContains (lowerStr p.name) q = true) :
    calculate_score s c p q ≤ 190 := by
  have ht := tiebreaker_le_ten c p hexp1
  unfold calculate_score
  by_cases hf : strContains (lowerStr p.folder) q = true <;>
    by_cases hd : strContains (lowerStr p.description) q = true <;>
      norm_num [hne, hnp, hsub, hf, hd, SCORE_NAME_MATCH, SCORE_FOLDER_MATCH,
        SCORE_DESCRIPTION_MATCH] <;>
      linarith

/-- C6 (amended): a record whose case-folded name equals the query scores
strictly higher than a record whose case-folded name contains the query only
as a non-prefix, non-exact substring — for all folders, descriptions,
contents and recency values.  (When the query is a proper prefix of the
other record's name the claim fails; see `c6_counterexample`.) -/
theorem c6_exact_name_beats_inner_substring
    (sA sB : Store) (c : Clock) (A B : PromptMetadata) (q : String)
    (hexp0 : ∀ x, 0 ≤ c.expFn x)
    (hexp1 : ∀ x, x ≤ 0 → c.expFn x ≤ 1)
    (hA : lowerStr A.name = q)
    (hBsub : strContains (lowerStr B.name) q = true)
    (hBne : ¬lowerStr B.name = q)
    (hBnp : strStarts (lowerStr B.name) q = false) :
    calculate_score sB c B q < calculate_score sA c A q := by
  have hge := calc_score_exact_ge sA c A q hexp0 hA
  have hle := calc_score_substring_le sB c B q hexp1 hBne hBnp hBsub
  linarith

/-- The fixed clock of the concrete search examples: every timestamp is
unparseable and `exp` is the constant one (admissible: non-negative and at
most one on non-positive arguments). -/
def cFix : Clock :=
  { hoursSince := fun _ => none, expFn := fun _ => 1 }

/-- Record A of the C6 counterexample: its name is exactly the query. -/
def c6A : PromptMetadata :=
  { fixtureMeta with name := "ab", folder := "zz", description := "zz" }

/-- Record B of the C6 counterexample: the query is a proper prefix of its
name, and its folder and description also contain the query. -/
def c6B : PromptMetadata :=
  { fixtureMeta with name := "abc", folder := "ab", description := "ab" }

/-- C6 counterexample: record A matches the query `ab` exactly while B only
contains it as a substring (a prefix), yet B scores 230 and A scores 200 —
the prefix tier (150) plus folder (50) and description (30) beats the exact
tier (200).  So the claim as stated (substring-but-not-exact always loses to
exact) is false. -/
theorem c6_counterexample :
    lowerStr c6A.name = "ab" ∧
    strContains (lowerStr c6B.name) "ab" = true ∧
    ¬lowerStr c6B.name = "ab" ∧
    calculate_score fixtureStore cFix c6A "ab" <
      calculate_score fixtureStore cFix c6B "ab" := by
  have e1 : lowerStr c6A.name = "ab" := by decide
  have e2 : strContains (lowerStr c6A.folder) "ab" = false := by decide
  have e3 : strContains (lowerStr c6A.description) "ab" = false := by decide
  have f0 : ¬lowerStr c6B.name = "ab" := by decide
  have f1 : strStarts (lowerStr c6B.name) "ab" = true := by decide
  have f2 : strContains (lowerStr c6B.folder) "ab" = true := by decide
  have f3 : strContains (lowerStr c6B.description) "ab" = true := by decide
  have tA : calculate_recency_tiebreaker cFix c6A = 0 := rfl
  have tB : calculate_recency_tiebreaker cFix c6B = 0 := rfl
  have hA : calculate_score fixtureStore cFix c6A "ab" = 200 := by
    unfold calculate_score
    rw [e1]
    norm_num [e2, e3, tA, SCORE_NAME_MATCH, MULT_EXACT]
  have hB : calculate_score fixtureStore cFix c6B "ab" = 230 := by
    unfold calculate_score
    norm_num [f0, f1, f2, f3, tB, SCORE_NAME_MATCH, SCORE_FOLDER_MATCH,
      SCORE_DESCRIPTION_MATCH, MULT_PREFIX_MATCH]
  exact ⟨e1, by decide, f0, by rw [hA, hB]; norm_num⟩

/-- Record B of the C6 witness: the query `ab` occurs in `zab` only as an
internal substring. -/
def c6WitB : PromptMetadata :=
  { fixtureMeta with name := "zab", folder := "ab", description := "ab" }

/-- Witness for the amended C6 theorem at concrete records. -/
theorem c6_witness :
    (∀ x, 0 ≤ cFix.expFn x) ∧
    (∀ x, x ≤ 0 → cFix.expFn x ≤ 1) ∧
    lowerStr c6A.name = "ab" ∧
    strContains (lowerStr c6WitB.name) "ab" = true ∧
    ¬lowerStr c6WitB.name = "ab" ∧
    strStarts (lowerStr c6WitB.name) "ab" = false ∧
    calculate_score fixtureStore cFix c6WitB "ab" <
      calculate_score fixtureStore cFix c6A "ab" :=
  ⟨fun x => by norm_num [cFix], fun x _ => by norm_num [cFix],
   by decide, by decide, by decide, by decide,
   c6_exact_name_beats_inner_substring fixtureStore fixtureStore cFix c6A c6WitB "ab"
     (fun x => by norm_num [cFix]) (fun x _ => by norm_num [cFix])
     (by decide) (by decide) (by decide) (by decide)⟩

/-! ## Claim C7: ordering of the empty-query result list

The comparator facts needed to use `List.sorted_insertionSort`. -/

theorem charsCmp_swap (a : List Char) : ∀ b, charsCmp a b = (charsCmp b a).swap := by
  induction a with
  | nil =>
    intro b
    cases b <;> rfl
  | cons x as ih =>
    intro b
    cases b with
    | nil => rfl
    | cons y bs =>
      unfold charsCmp
      rcases lt_trichotomy x y with h | h | h
      · simp [h, not_lt_of_lt h, Ordering.swap]
      · simp [h, lt_irrefl, ih bs]
      · simp [h, not_lt_of_lt h, Ordering.swap]

theorem charsCmp_ne_gt_trans {a b c : List Char}
    (hab : charsCmp a b ≠ .gt) (hbc : charsCmp b c ≠ .gt) :
    charsCmp a c ≠ .gt := by
  induction a generalizing b c with
  | nil =>
    cases c <;> simp [charsCmp]
  | cons x as ih =>
    cases b with
    | nil => exact absurd rfl hab
    | cons y bs =>
      cases c with
      | nil => exact absurd rfl hbc
      | cons z cs =>
        unfold charsCmp at hab hbc ⊢
        rcases lt_trichotomy x y with hxy | hxy | hxy
        · rcases lt_trichotomy y z with hyz | hyz | hyz
          · have hxz : x < z := lt_trans hxy hyz
            simp [hxz]
          · have hxz : x < z := hyz ▸ hxy
            simp [hxz]
          · exact absurd (by simp [not_lt_of_lt hyz, hyz]) hbc
        · rcases lt_trichotomy y z with hyz | hyz | hyz
          · have hxz : x < z := hxy ▸ hyz
            simp [hxz]
          · subst hxy
            subst hyz
            simp only [lt_irrefl, if_false] at hab hbc ⊢
            exact ih hab hbc
          · exact absurd (by simp [not_lt_of_lt hyz, hyz]) hbc
        · exact absurd (by simp [not_lt_of_lt hxy, hxy]) hab

theorem cmpQ_eq_iff {x y : ℚ} : cmpQ x y = .eq ↔ x = y := by
  unfold cmpQ
  rcases lt_trichotomy x y with h | h | h
  · simp [h, ne_of_lt h]
  · simp [h, lt_irrefl]
  · simp [not_lt_of_lt h, h, ne_of_gt h]

theorem cmpQ_eq_gt_iff {x y : ℚ} : cmpQ x y = .gt ↔ y < x := by
  unfold cmpQ
  rcases lt_trichotomy x y with h | h | h
  · simp [h, not_lt_of_lt h]
  · simp [h, lt_irrefl]
  · simp [not_lt_of_lt h, h]

/-- The tiebreak order on `lastUsed` values that the comparator implements
(in the orientation of `emptyQueryLe a b`): an absent value precedes any
present value, and present values are ordered by timestamp descending. -/
def tieOk (x y : Option String) : Prop :=
  match x, y with
  | none, _ => True
  | some _, none => False
  | some xs, some ys => charsCmp ys.data xs.data ≠ .gt

theorem emptyQueryLe_iff {a b : SearchResult} :
    emptyQueryLe a b ↔
      b.score < a.score ∨
        (b.score = a.score ∧ tieOk a.prompt.lastUsed b.prompt.lastUsed) := by
  unfold emptyQueryLe emptyQueryCmp lastUsedTieCmp
  by_cases hsc : cmpQ b.score a.score = .eq
  · have hxy : b.score = a.score := cmpQ_eq_iff.mp hsc
    simp only [hsc, if_pos rfl]
    rcases hx : a.prompt.lastUsed with _ | ats <;>
      rcases hy : b.prompt.lastUsed with _ | bts <;>
        simp [tieOk, hxy, lt_irrefl]
  · simp only [hsc, if_neg, if_false]
    constructor
    · intro hne
      rcases hlt : cmpQ b.score a.score with _ | _ | _
      · left
        unfold cmpQ at hlt
        by_cases h1 : b.score < a.score
        · exact h1
        · exfalso
          by_cases h2 : a.score < b.score <;> simp [cmpQ, h1, h2] at hlt
      · exact absurd hlt hsc
      · exact absurd hlt hne
    · intro h hgt
      rcases h with h | ⟨h, _⟩
      · exact absurd (cmpQ_eq_gt_iff.mp hgt) (not_lt_of_lt h)
      · exact hsc (cmpQ_eq_iff.mpr h)

theorem tieOk_total (x y : Option String) : tieOk x y ∨ tieOk y x := by
  rcases x with _ | xs
  · left; trivial
  · rcases y with _ | ys
    · right; trivial
    · by_cases h : charsCmp ys.data xs.data = .gt
      · right
        show charsCmp xs.data ys.data ≠ .gt
        rw [charsCmp_swap, h]
        simp [Ordering.swap]
      · left; exact h

theorem tieOk_trans {x y z : Option String} (h1 : tieOk x y) (h2 : tieOk y z) :
    tieOk x z := by
  rcases x with _ | xs
  · trivial
  · rcases y with _ | ys
    · exact absurd h1 (by simp [tieOk])
    · rcases z with _ | zs
      · exact absurd h2 (by simp [tieOk])
      · exact charsCmp_ne_gt_trans h2 h1

theorem emptyQueryLe_total (a b : SearchResult) : emptyQueryLe a b ∨ emptyQueryLe b a := by
  rcases lt_trichotomy b.score a.score with h | h | h
  · exact Or.inl (emptyQueryLe_iff.mpr (Or.inl h))
  · rcases tieOk_total a.prompt.lastUsed b.prompt.lastUsed with ht | ht
    · exact Or.inl (emptyQueryLe_iff.mpr (Or.inr ⟨h, ht⟩))
    · exact Or.inr (emptyQueryLe_iff.mpr (Or.inr ⟨h.symm, ht⟩))
  · exact Or.inr (emptyQueryLe_iff.mpr (Or.inl h))

theorem emptyQueryLe_trans {a b c : SearchResult}
    (hab : emptyQueryLe a b) (hbc : emptyQueryLe b c) : emptyQueryLe a c := by
  rcases emptyQueryLe_iff.mp hab with h1 | ⟨h1, t1⟩ <;>
    rcases emptyQueryLe_iff.mp hbc with h2 | ⟨h2, t2⟩
  · exact emptyQueryLe_iff.mpr (Or.inl (lt_trans h2 h1))
  · exact emptyQueryLe_iff.mpr (Or.inl (h2 ▸ h1))
  · exact emptyQueryLe_iff.mpr (Or.inl (h1 ▸ h2))
  · exact emptyQueryLe_iff.mpr (Or.inr ⟨h2.trans h1, tieOk_trans t1 t2⟩)

/-- The empty-query result list is pairwise ordered by the comparator
relation. -/
theorem search_empty_pairwise (c : Clock) (now : String) (s : Store) :
    List.Pairwise emptyQueryLe (search_prompts c now s "").2 := by
  unfold search_prompts
  haveI : IsTotal SearchResult emptyQueryLe := ⟨emptyQueryLe_total⟩
  haveI : IsTrans SearchResult emptyQueryLe := ⟨fun _ _ _ => emptyQueryLe_trans⟩
  simp only [show (lowerStr "").isEmpty = true from rfl, if_pos]
  exact List.Pairwise.sublist (List.take_sublist _ _)
    (List.sorted_insertionSort emptyQueryLe _)

/-- Every entry of the empty-query result list carries the recency score of
its own prompt. -/
theorem search_empty_scores (c : Clock) (now : String) (s : Store) :
    ∀ r ∈ (search_prompts c now s "").2, r.score = calculate_recency_score c r.prompt := by
  unfold search_prompts
  simp only [show (lowerStr "").isEmpty = true from rfl, if_pos]
  intro r hr
  have hr2 := List.mem_of_mem_take hr
  have hr3 := (List.perm_insertionSort emptyQueryLe _).mem_iff.mp hr2
  rcases List.mem_map.mp hr3 with ⟨p, _, hp⟩
  rw [← hp]

/-- C7 (amended): in the empty-query result list, (1) no record whose
`lastUsed` is present and parseable appears after a record whose `lastUsed`
is absent (with an unparseable `lastUsed` the comparator instead sorts the
absent record first — see `c7_counterexample`), and (2) among records with
equal score whose `lastUsed` are both present, later entries have
lexicographically smaller-or-equal timestamps (`lastUsed` descending). -/
theorem c7_empty_query_order (c : Clock) (now : String) (s : Store)
    (hexp0 : ∀ x, 0 ≤ c.expFn x)
    (i j : Nat)
    (hi : i < ((search_prompts c now s "").2).length)
    (hj : j < ((search_prompts c now s "").2).length)
    (hij : i < j) :
    ((((search_prompts c now s "").2).get ⟨i, hi⟩).prompt.lastUsed = none →
      ∀ ts, (((search_prompts c now s "").2).get ⟨j, hj⟩).prompt.lastUsed = some ts →
        c.hoursSince ts = none) ∧
    ((((search_prompts c now s "").2).get ⟨i, hi⟩).score =
        (((search_prompts c now s "").2).get ⟨j, hj⟩).score →
      ∀ ta tb, (((search_prompts c now s "").2).get ⟨i, hi⟩).prompt.lastUsed = some ta →
        (((search_prompts c now s "").2).get ⟨j, hj⟩).prompt.lastUsed = some tb →
        charsCmp tb.data ta.data ≠ .gt) := by
  have hpw := search_empty_pairwise c now s
  have hle : emptyQueryLe (((search_prompts c now s "").2).get ⟨i, hi⟩)
      (((search_prompts c now s "").2).get ⟨j, hj⟩) := by
    have := List.pairwise_iff_getElem.mp hpw i j hi hj hij
    simpa using this
  have hsi := search_empty_scores c now s _
    (List.get_mem ((search_prompts c now s "").2) i hi)
  have hsj := search_empty_scores c now s _
    (List.get_mem ((search_prompts c now s "").2) j hj)
  constructor
  · intro hnone ts hts
    by_contra hpar
    rcases hh : c.hoursSince ts with _ | hours
    · exact hpar hh
    · have hscorei : (((search_prompts c now s "").2).get ⟨i, hi⟩).score = -1000 := by
        rw [hsi]
        unfold calculate_recency_score
        rw [hnone]
        rfl
      have hscorej : 0 ≤ (((search_prompts c now s "").2).get ⟨j, hj⟩).score := by
        rw [hsj]
        unfold calculate_recency_score
        rw [hts]
        simp only [hh]
        exact mul_nonneg (by norm_num [RECENCY_MAX_SCORE]) (hexp0 _)
      rcases emptyQueryLe_iff.mp hle with h | ⟨h, _⟩
      · rw [hscorei] at h
        linarith
      · rw [hscorei] at h
        linarith
  · intro hsc ta tb hta htb
    rcases emptyQueryLe_iff.mp hle with h | ⟨_, ht⟩
    · rw [hsc] at h
      exact absurd h (lt_irrefl _)
    · unfold tieOk at ht
      rw [hta, htb] at ht
      exact ht

/-- The never-used record of the C7 counterexample. -/
def c7CeMetaA : PromptMetadata := fixtureMeta

/-- The used-but-unparseable record of the C7 counterexample: `lastUsed` is
present but is not an RFC3339 timestamp. -/
def c7CeMetaB : PromptMetadata :=
  { fixtureMeta with id := "b", filename := "b.md", lastUsed := some "zzz" }

/-- The index of the C7 counterexample. -/
def c7CeIndex : PromptIndex :=
  { prompts := [c7CeMetaA, c7CeMetaB], folders := ["uncategorized"],
    folderMeta := none, seeded := true }

/-- The store of the C7 counterexample. -/
def c7CeStore : Store :=
  { index := some c7CeIndex, files := [] }

/-- C7 counterexample: with one never-used record and one whose `lastUsed`
is present but unparseable, both score the fixed penalty, and the tiebreak
branch `(Some(_), None) => Less` of the comparator sorts the absent record
FIRST — so the claim that every absent-`lastUsed` record appears after every
present-`lastUsed` record is false. -/
theorem c7_counterexample :
    (search_prompts cFix "T1" c7CeStore "").2.map (fun r => r.prompt.lastUsed) =
      [none, some "zzz"] := by
  decide

/-- The index of the C7 witness: two never-used prompts. -/
def c7WitIndex : PromptIndex :=
  { prompts := [fixtureMeta, { fixtureMeta with id := "b", filename := "b.md" }],
    folders := ["uncategorized"], folderMeta := none, seeded := true }

/-- The store of the C7 witness. -/
def c7WitStore : Store :=
  { index := some c7WitIndex, files := [] }

/-- Witness for the amended C7 theorem at concrete indices of a concrete
search. -/
theorem c7_witness :
    (∀ x, 0 ≤ cFix.expFn x) ∧
    0 < ((search_prompts cFix "T1" c7WitStore "").2).length ∧
    1 < ((search_prompts cFix "T1" c7WitStore "").2).length ∧
    ((((search_prompts cFix "T1" c7WitStore "").2).get ⟨0, by decide⟩).prompt.lastUsed = none →
      ∀ ts, (((search_prompts cFix "T1" c7WitStore "").2).get ⟨1, by decide⟩).prompt.lastUsed = some ts →
        cFix.hoursSince ts = none) ∧
    ((((search_prompts cFix "T1" c7WitStore "").2).get ⟨0, by decide⟩).score =
        (((search_prompts cFix "T1" c7WitStore "").2).get ⟨1, by decide⟩).score →
      ∀ ta tb, (((search_prompts cFix "T1" c7WitStore "").2).get ⟨0, by decide⟩).prompt.lastUsed = some ta →
        (((search_prompts cFix "T1" c7WitStore "").2).get ⟨1, by decide⟩).prompt.lastUsed = some tb →
        charsCmp tb.data ta.data ≠ .gt) :=
  ⟨fun x => by norm_num [cFix], by decide, by decide,
    (c7_empty_query_order cFix "T1" c7WitStore (fun x => by norm_num [cFix])
      0 1 (by decide) (by decide) (by decide)).1,
    (c7_empty_query_order cFix "T1" c7WitStore (fun x => by norm_num [cFix])
      0 1 (by decide) (by decide) (by decide)).2⟩

end PromptLight
